import Mathlib

/-! Core Web Vitals collector: embedding and verified properties.

Shallow embedding of `src/core_web_vitals_collector.js` (class
`CoreWebVitalsCollector`).

Conventions of the embedding:
* a JavaScript number that the host hands to the collector (a timestamp, a
  duration, a shift magnitude, a heap size) is the rational `ℚ` that the double
  denotes;
* the sums, products and quotients the collector computes, and the differences
  that feed such a sum, are the IEEE 754 double operations: the exact rational
  result rounded to the nearest double, ties to even, overflowing to a signed
  infinity (`roundDouble`); their results are `JSNum`s: a finite rational,
  `NaN`, or a signed infinity; signed zeros are not distinguished;
* a difference of two host timestamps that the collector stores as it is (fid,
  the interaction delay, ttfb, the timing breakdown) is written as the rational
  difference `a - b`; the rounding of that single subtraction is not modelled;
* `null`/`undefined` is `none`;
* `console.log`/`console.warn` are kept only where evaluating their argument
  can throw;
* an observer callback returns the metrics it leaves behind together with
  its completion (normal, or an uncaught exception).
-/

set_option autoImplicit false

namespace CoreWebVitals

/-! ## JavaScript values -/

/-- Exceptions the collector can raise. -/
inductive JSError where
  | typeError
  | referenceError
  deriving DecidableEq, Repr

/-- A computed JavaScript number: finite, `NaN`, or `±Infinity` (`neg = true` is `-Infinity`). -/
inductive JSNum where
  | num (q : ℚ)
  | nan
  | inf (neg : Bool)
  deriving DecidableEq

/-- The integer nearest to `y`; a tie goes to the even neighbour. -/
def roundHalfEven (y : ℚ) : ℤ :=
  if y - ⌊y⌋ < 1/2 then ⌊y⌋
  else if 1/2 < y - ⌊y⌋ then ⌊y⌋ + 1
  else if ⌊y⌋ % 2 = 0 then ⌊y⌋ else ⌊y⌋ + 1

/-- Exponent of the unit in the last place of a double of the magnitude of `x`: 52 below the
binary exponent of `x`, and never below that of the subnormal doubles. -/
def ulpExp (x : ℚ) : ℤ :=
  max (Int.log 2 |x| - 52) (-1074)

/-- The IEEE 754 double nearest to `x` (round to nearest, ties to even): `x` is rounded to a
multiple of its unit in the last place, and a result of magnitude `2 ^ 1024` or more is the
infinity of the sign of `x`. -/
def roundDouble (x : ℚ) : JSNum :=
  if (2:ℚ) ^ (1024:ℕ) ≤ |(roundHalfEven (x / (2:ℚ) ^ ulpExp x) : ℚ) * (2:ℚ) ^ ulpExp x| then
    JSNum.inf (decide (x < 0))
  else JSNum.num ((roundHalfEven (x / (2:ℚ) ^ ulpExp x) : ℚ) * (2:ℚ) ^ ulpExp x)

namespace JSNum

/-- JavaScript `a + b`. -/
def add : JSNum → JSNum → JSNum
  | num a, num b => roundDouble (a + b)
  | nan, _ => nan
  | _, nan => nan
  | inf s, num _ => inf s
  | num _, inf s => inf s
  | inf s, inf t => if s = t then inf s else nan

/-- JavaScript `a * b`. -/
def mul : JSNum → JSNum → JSNum
  | num a, num b => roundDouble (a * b)
  | nan, _ => nan
  | _, nan => nan
  | inf s, num b => if b = 0 then nan else inf (xor s (decide (b < 0)))
  | num a, inf s => if a = 0 then nan else inf (xor s (decide (a < 0)))
  | inf s, inf t => inf (xor s t)

/-- JavaScript `a <= b` against a finite bound; every comparison with `NaN` is false. -/
def le : JSNum → ℚ → Bool
  | num a, b => decide (a ≤ b)
  | nan, _ => false
  | inf s, _ => s

end JSNum

/-- A possibly missing numeric property read as a number: `undefined` converts to `NaN`. -/
def toNumber : Option ℚ → JSNum
  | some q => JSNum.num q
  | none => JSNum.nan

/-- JavaScript `a - b` where `a` is finite and the property `b` may be missing. -/
def jsSub (a : ℚ) (b : Option ℚ) : JSNum :=
  match b with
  | some q => JSNum.num (a - q)
  | none => JSNum.nan

/-- JavaScript `a / b` on finite operands. -/
def jsDiv (a b : ℚ) : JSNum :=
  if b = 0 then (if a = 0 then JSNum.nan else JSNum.inf (decide (a < 0)))
  else roundDouble (a / b)

/-- JavaScript `a / b`. -/
def JSNum.div : JSNum → JSNum → JSNum
  | JSNum.num a, JSNum.num b => jsDiv a b
  | JSNum.nan, _ => JSNum.nan
  | _, JSNum.nan => JSNum.nan
  | JSNum.inf s, JSNum.num b => JSNum.inf (xor s (decide (b < 0)))
  | JSNum.num _, JSNum.inf _ => JSNum.num 0
  | JSNum.inf _, JSNum.inf _ => JSNum.nan

/-- JavaScript `a - b` on two finite operands whose difference goes on into a sum. -/
def jsMinus (a b : ℚ) : JSNum :=
  roundDouble (a - b)

/-- JavaScript `x || 0` on a number-or-null: `null` and `0` both give `0`. -/
def orZero : Option ℚ → ℚ
  | none => 0
  | some v => if v = 0 then 0 else v

/-! ## Performance entries delivered by the host -/

/-- Entry of the `largest-contentful-paint` stream. -/
structure LargestContentfulPaint where
  startTime : ℚ
  deriving DecidableEq

/-- Entry of the `first-input` stream. `interactionId` is `undefined` or a number. -/
structure EventTiming where
  name : String
  startTime : ℚ
  processingStart : ℚ
  interactionId : Option Nat
  deriving DecidableEq

/-- Truthiness of `entry.interactionId`: defined and non-zero. -/
def EventTiming.hasInteraction (e : EventTiming) : Bool :=
  match e.interactionId with
  | some n => n != 0
  | none => false

/-- The `DOMRect` of a shifted element, carried through unchanged. -/
structure Rect where
  x : ℚ
  y : ℚ
  width : ℚ
  height : ℚ
  deriving DecidableEq

/-- One element of `entry.sources`; `node` is the tag name of `source.node`, `none` when the
node is `null`. -/
structure ShiftSource where
  node : Option String
  previousRect : Rect
  currentRect : Rect
  deriving DecidableEq

/-- Entry of the `layout-shift` stream. `value` is `none` for a record that lacks the field,
`sources` is `none` where the host does not report sources. -/
structure LayoutShift where
  value : Option ℚ
  startTime : ℚ
  hadRecentInput : Bool
  sources : Option (List ShiftSource)
  deriving DecidableEq

/-- Entry of the `paint` stream. -/
structure PaintTiming where
  name : String
  startTime : ℚ
  deriving DecidableEq

/-! ## Collector state -/

/-- Element descriptor stored with a logged layout shift. -/
structure SourceInfo where
  node : String
  previousRect : Rect
  currentRect : Rect
  deriving DecidableEq

/-- Element of `metrics.clsEntries`. -/
structure ClsEntry where
  value : Option ℚ
  startTime : ℚ
  sources : List SourceInfo
  deriving DecidableEq

/-- The object `this.metrics`. The field `performanceEntries` of the source is initialised to
`[]` and never read or written again; it is left out. -/
structure Metrics where
  lcp : Option ℚ
  fid : Option ℚ
  cls : JSNum
  ttfb : Option ℚ
  fcp : Option ℚ
  inp : Option ℚ
  clsEntries : List ClsEntry
  deriving DecidableEq

/-- The metrics object built by the constructor. -/
def initialMetrics : Metrics :=
  { lcp := none, fid := none, cls := JSNum.num 0, ttfb := none, fcp := none, inp := none,
    clsEntries := [] }

/-- How a callback ended. -/
inductive Completion where
  | normal
  | throw (e : JSError)
  deriving DecidableEq

/-- Outcome of one observer callback: the metrics it leaves and how it ended. -/
structure Run where
  metrics : Metrics
  completion : Completion
  deriving DecidableEq

/-! ## Observer callbacks -/

/-- Callback of `lcpObserver`: reads the last entry of the batch; on an empty batch
`lastEntry` is `undefined` and reading `lastEntry.startTime` throws before any write. -/
def lcpObserver (m : Metrics) (entries : List LargestContentfulPaint) : Run :=
  match entries.getLast? with
  | none => ⟨m, Completion.throw JSError.typeError⟩
  | some lastEntry => ⟨{ m with lcp := some lastEntry.startTime }, Completion.normal⟩

/-- Body of the `for` loop of `fidObserver` for one entry. -/
def fidStep (m : Metrics) (entry : EventTiming) : Metrics :=
  let m1 : Metrics :=
    if entry.name = "first-input" then
      { m with fid := some (entry.processingStart - entry.startTime) }
    else m
  if entry.hasInteraction then
    let interactionTime := entry.processingStart - entry.startTime
    { m1 with inp := some (max (orZero m1.inp) interactionTime) }
  else m1

/-- Callback of `fidObserver`. -/
def fidObserver (m : Metrics) (entries : List EventTiming) : Run :=
  ⟨entries.foldl fidStep m, Completion.normal⟩

/-- The mapping `source => ({ node: source.node?.tagName || 'unknown', ... })`. -/
def sourceInfo (source : ShiftSource) : SourceInfo :=
  { node :=
      match source.node with
      | some tag => if tag = "" then "unknown" else tag
      | none => "unknown"
    previousRect := source.previousRect
    currentRect := source.currentRect }

/-- The object pushed onto `clsEntries` for a layout shift. -/
def clsEntryOf (entry : LayoutShift) : ClsEntry :=
  { value := entry.value
    startTime := entry.startTime
    sources :=
      match entry.sources with
      | some ss => ss.map sourceInfo
      | none => [] }

/-- Callback of `clsObserver`. For a shift without recent input it pushes the log entry, adds
`entry.value` to `cls`, then evaluates `entry.value.toFixed(4)` for the trace, which throws
when `value` is `undefined` and ends the loop. -/
def clsObserver (m : Metrics) : List LayoutShift → Run
  | [] => ⟨m, Completion.normal⟩
  | entry :: rest =>
    if !entry.hadRecentInput then
      let m1 : Metrics :=
        { m with
          clsEntries := m.clsEntries ++ [clsEntryOf entry]
          cls := m.cls.add (toNumber entry.value) }
      match entry.value with
      | none => ⟨m1, Completion.throw JSError.typeError⟩
      | some _ => clsObserver m1 rest
    else clsObserver m rest

/-- Body of the `for` loop of `paintObserver` for one entry. -/
def paintStep (m : Metrics) (entry : PaintTiming) : Metrics :=
  if entry.name = "first-contentful-paint" then { m with fcp := some entry.startTime } else m

/-- Callback of `paintObserver`. -/
def paintObserver (m : Metrics) (entries : List PaintTiming) : Run :=
  ⟨entries.foldl paintStep m, Completion.normal⟩

/-- One delivery by the host: a batch of entries handed to the observer of its stream. -/
inductive EntryList where
  | largestContentfulPaint (entries : List LargestContentfulPaint)
  | firstInput (entries : List EventTiming)
  | layoutShift (entries : List LayoutShift)
  | paint (entries : List PaintTiming)
  deriving DecidableEq

/-- Dispatch of a delivery to the callback registered for its stream. -/
def deliver (m : Metrics) : EntryList → Run
  | EntryList.largestContentfulPaint es => lcpObserver m es
  | EntryList.firstInput es => fidObserver m es
  | EntryList.layoutShift es => clsObserver m es
  | EntryList.paint es => paintObserver m es

/-- A sequence of deliveries. An exception escaping one callback is reported by the host and
does not prevent later callbacks, which see the metrics as the failed callback left them. -/
def deliverAll (m : Metrics) (ds : List EntryList) : Metrics :=
  ds.foldl (fun s d => (deliver s d).metrics) m

/-! ## Scoring -/

/-- The three score strings `'good'`, `'needs-improvement'`, `'poor'`. -/
inductive Label where
  | good
  | needsImprovement
  | poor
  deriving DecidableEq, Repr

/-- The string the source stores for a label. -/
def Label.toString : Label → String
  | Label.good => "good"
  | Label.needsImprovement => "needs-improvement"
  | Label.poor => "poor"

/-- The object `scores`: property names with their values, in insertion order. -/
abbrev Scores := List (String × Label)

/-- Property read `scores[key]`; `none` is `undefined`. -/
def Scores.get (scores : Scores) (key : String) : Option Label :=
  match scores with
  | [] => none
  | (k, v) :: rest => if k = key then some v else Scores.get rest key

/-- Property assignment `scores[key] = value`: overwrites in place or appends. -/
def Scores.set (scores : Scores) (key : String) (value : Label) : Scores :=
  match scores with
  | [] => [(key, value)]
  | (k, v) :: rest => if k = key then (k, value) :: rest else (k, v) :: Scores.set rest key value

/-- Method `calculatePerformanceScores`. -/
def calculatePerformanceScores (m : Metrics) : Scores :=
  let scores : Scores := []
  let scores : Scores :=
    match m.lcp with
    | some lcp =>
      if lcp ≤ 2500 then scores.set "lcp" Label.good
      else if lcp ≤ 4000 then scores.set "lcp" Label.needsImprovement
      else scores.set "lcp" Label.poor
    | none => scores
  let scores : Scores :=
    match m.fid with
    | some fid =>
      if fid ≤ 100 then scores.set "fid" Label.good
      else if fid ≤ 300 then scores.set "fid" Label.needsImprovement
      else scores.set "fid" Label.poor
    | none => scores
  let scores : Scores :=
    if m.cls.le 0.1 then scores.set "cls" Label.good
    else if m.cls.le 0.25 then scores.set "cls" Label.needsImprovement
    else scores.set "cls" Label.poor
  let scores : Scores :=
    match m.ttfb with
    | some ttfb =>
      if ttfb ≤ 800 then scores.set "ttfb" Label.good
      else if ttfb ≤ 1800 then scores.set "ttfb" Label.needsImprovement
      else scores.set "ttfb" Label.poor
    | none => scores
  scores

/-! ## Host environment -/

/-- The navigation-timing entry. `navigationStart` is read by the source but is not a
property of every host's navigation entry, hence optional. -/
structure NavigationTiming where
  redirectStart : ℚ
  redirectEnd : ℚ
  domainLookupStart : ℚ
  domainLookupEnd : ℚ
  connectStart : ℚ
  connectEnd : ℚ
  secureConnectionStart : ℚ
  requestStart : ℚ
  responseStart : ℚ
  responseEnd : ℚ
  domContentLoadedEventStart : ℚ
  domContentLoadedEventEnd : ℚ
  loadEventStart : ℚ
  loadEventEnd : ℚ
  domInteractive : ℚ
  domComplete : ℚ
  navigationStart : Option ℚ
  deriving DecidableEq

/-- A resource-timing entry. -/
structure ResourceTiming where
  initiatorType : String
  startTime : ℚ
  responseEnd : ℚ
  deriving DecidableEq

/-- The object `performance.memory`. -/
structure MemoryInfo where
  usedJSHeapSize : ℚ
  totalJSHeapSize : ℚ
  jsHeapSizeLimit : ℚ
  deriving DecidableEq

/-- What `performance.getEntriesByType` returns for the two types the collector asks for. -/
structure Timeline where
  navigation : List NavigationTiming
  resource : List ResourceTiming
  deriving DecidableEq

/-- The global `performance`; `timeline = none` when it has no `getEntriesByType`. -/
structure Performance where
  timeline : Option Timeline
  memory : Option MemoryInfo
  deriving DecidableEq

/-- The four observed entry types; an observer is identified by the stream it was built for. -/
inductive Stream where
  | largestContentfulPaint
  | firstInput
  | layoutShift
  | paint
  deriving DecidableEq, Repr

/-- The part of `window` the collector looks at. `observeThrows s` tells whether
`observer.observe` raises for stream `s`; `performance = none` when `window` has no
`performance`. -/
structure Window where
  hasPerformanceObserver : Bool
  observeThrows : Stream → Bool
  performance : Option Performance

/-! ## The collector object -/

/-- An instance of `CoreWebVitalsCollector`. -/
structure Collector where
  metrics : Metrics
  observers : List Stream
  deriving DecidableEq

/-- Method `calculateTTFB`. -/
def calculateTTFB (w : Window) (m : Metrics) : Metrics :=
  match w.performance with
  | none => m
  | some performance =>
    match performance.timeline with
    | none => m
    | some timeline =>
      match timeline.navigation.head? with
      | some navigation => { m with ttfb := some (navigation.responseStart - navigation.requestStart) }
      | none => m

/-- One `try { observer.observe(...); this.observers.push(observer) } catch (e) { warn }`. -/
def subscribe (w : Window) (observers : List Stream) (s : Stream) : List Stream :=
  if w.observeThrows s then observers else observers ++ [s]

/-- Method `setupObservers`. -/
def setupObservers (w : Window) (c : Collector) : Collector :=
  let observers : List Stream :=
    if w.hasPerformanceObserver then
      let o1 := subscribe w c.observers Stream.largestContentfulPaint
      let o2 := subscribe w o1 Stream.firstInput
      let o3 := subscribe w o2 Stream.layoutShift
      subscribe w o3 Stream.paint
    else c.observers
  { metrics := calculateTTFB w c.metrics, observers := observers }

/-- The constructor of `CoreWebVitalsCollector`. -/
def newCollector (w : Window) : Collector :=
  setupObservers w { metrics := initialMetrics, observers := [] }

/-- Method `cleanup`: the collector afterwards and the observers it disconnected, in order. -/
def cleanup (c : Collector) : Collector × List Stream :=
  ({ c with observers := [] }, c.observers)

/-! ## The report -/

/-- The object `coreWebVitals` of the report. -/
structure CoreWebVitalsReport where
  lcp : Option ℚ
  fid : Option ℚ
  cls : JSNum
  fcp : Option ℚ
  inp : Option ℚ
  ttfb : Option ℚ
  deriving DecidableEq

/-- The object `timingBreakdown` of the report. -/
structure TimingBreakdown where
  redirectTime : ℚ
  dnsTime : ℚ
  tcpTime : ℚ
  tlsTime : ℚ
  requestTime : ℚ
  responseTime : ℚ
  domParseTime : ℚ
  domContentLoadedTime : ℚ
  loadEventTime : ℚ
  totalTime : JSNum
  domInteractiveTime : JSNum
  domCompleteTime : JSNum
  deriving DecidableEq

/-- The object `resourceSummary` of the report. -/
structure ResourceSummary where
  totalResources : Nat
  imageResources : Nat
  scriptResources : Nat
  stylesheetResources : Nat
  averageResourceTime : JSNum
  deriving DecidableEq

/-- The object `memory` of the report. -/
structure MemoryReport where
  usedJSHeapSize : ℚ
  totalJSHeapSize : ℚ
  jsHeapSizeLimit : ℚ
  usagePercentage : JSNum
  deriving DecidableEq

/-- The object returned by `getDetailedMetrics`. -/
structure Report where
  coreWebVitals : CoreWebVitalsReport
  timingBreakdown : Option TimingBreakdown
  resourceSummary : ResourceSummary
  memory : Option MemoryReport
  layoutShifts : List ClsEntry
  performanceScores : Scores
  deriving DecidableEq

/-- The `timingBreakdown` literal built from a navigation entry. -/
def timingBreakdownOf (navigation : NavigationTiming) : TimingBreakdown :=
  { redirectTime := navigation.redirectEnd - navigation.redirectStart
    dnsTime := navigation.domainLookupEnd - navigation.domainLookupStart
    tcpTime := navigation.connectEnd - navigation.connectStart
    tlsTime :=
      if navigation.secureConnectionStart > 0 then
        navigation.connectEnd - navigation.secureConnectionStart
      else 0
    requestTime := navigation.responseStart - navigation.requestStart
    responseTime := navigation.responseEnd - navigation.responseStart
    domParseTime := navigation.domContentLoadedEventStart - navigation.responseEnd
    domContentLoadedTime :=
      navigation.domContentLoadedEventEnd - navigation.domContentLoadedEventStart
    loadEventTime := navigation.loadEventEnd - navigation.loadEventStart
    totalTime := jsSub navigation.loadEventEnd navigation.navigationStart
    domInteractiveTime := jsSub navigation.domInteractive navigation.navigationStart
    domCompleteTime := jsSub navigation.domComplete navigation.navigationStart }

/-- The `resourceSummary` literal built from the resource entries. -/
def resourceSummaryOf (resources : List ResourceTiming) : ResourceSummary :=
  { totalResources := resources.length
    imageResources := (resources.filter (fun r => r.initiatorType = "img")).length
    scriptResources := (resources.filter (fun r => r.initiatorType = "script")).length
    stylesheetResources := (resources.filter (fun r => r.initiatorType = "link")).length
    averageResourceTime :=
      if resources.length > 0 then
        (resources.foldl (fun sum r => sum.add (jsMinus r.responseEnd r.startTime))
          (JSNum.num 0)).div (JSNum.num resources.length)
      else JSNum.num 0 }

/-- The `memory` literal built from `performance.memory`. -/
def memoryReportOf (memory : MemoryInfo) : MemoryReport :=
  { usedJSHeapSize := memory.usedJSHeapSize
    totalJSHeapSize := memory.totalJSHeapSize
    jsHeapSizeLimit := memory.jsHeapSizeLimit
    usagePercentage := (jsDiv memory.usedJSHeapSize memory.jsHeapSizeLimit).mul (JSNum.num 100) }

/-- Method `getDetailedMetrics`. It reads `performance.getEntriesByType` without a guard:
a `window` without `performance` gives a `ReferenceError`, a `performance` without
`getEntriesByType` a `TypeError`. The metrics are only read. -/
def getDetailedMetrics (w : Window) (m : Metrics) : Except JSError Report :=
  match w.performance with
  | none => Except.error JSError.referenceError
  | some performance =>
    match performance.timeline with
    | none => Except.error JSError.typeError
    | some timeline =>
      let navigation := timeline.navigation.head?
      let resources := timeline.resource
      Except.ok
        { coreWebVitals :=
            { lcp := m.lcp, fid := m.fid, cls := m.cls, fcp := m.fcp, inp := m.inp,
              ttfb := m.ttfb }
          timingBreakdown := navigation.map timingBreakdownOf
          resourceSummary := resourceSummaryOf resources
          memory := performance.memory.map memoryReportOf
          layoutShifts := m.clsEntries
          performanceScores := calculatePerformanceScores m }

/-! ## Vocabulary of the properties -/

/-- The layout shifts of a batch that are not flagged as caused by recent input. -/
def qualifyingShifts (entries : List LayoutShift) : List LayoutShift :=
  entries.filter (fun e => !e.hadRecentInput)

/-- The magnitude of a layout shift that carries one. -/
def shiftValue (e : LayoutShift) : ℚ :=
  e.value.getD 0

/-- The largest-contentful-paint records among a sequence of deliveries, in delivery order. -/
def lcpRecords : List EntryList → List LargestContentfulPaint
  | [] => []
  | EntryList.largestContentfulPaint es :: ds => es ++ lcpRecords ds
  | _ :: ds => lcpRecords ds

/-- The processing delay `processingStart - startTime` of a first-input-stream record. -/
def delay (e : EventTiming) : ℚ :=
  e.processingStart - e.startTime

/-- The largest processing delay among a sequence of first-input-stream records (0 for the
empty sequence). -/
def maxDelay : List EventTiming → ℚ
  | [] => 0
  | e :: rest => (rest.map delay).foldl max (delay e)

/-- The time a resource took: `responseEnd - startTime`. -/
def resourceTime (r : ResourceTiming) : ℚ :=
  r.responseEnd - r.startTime

/-- The metrics of a collector constructed on host `w` after the deliveries `ds`. -/
def reached (w : Window) (ds : List EntryList) : Metrics :=
  deliverAll (newCollector w).metrics ds

/-- A call `collector.getDetailedMetrics()` in state-passing form: the collector afterwards
and the outcome. Neither the method nor `calculatePerformanceScores` assigns to a property of
`this`, so the collector comes back as it went in. -/
def callGetDetailedMetrics (w : Window) (c : Collector) : Collector × Except JSError Report :=
  (c, getDetailedMetrics w c.metrics)

/-- A call `collector.calculatePerformanceScores()` in state-passing form. -/
def callCalculatePerformanceScores (c : Collector) : Collector × Scores :=
  (c, calculatePerformanceScores c.metrics)

/-- The stream a delivery belongs to. -/
def EntryList.stream : EntryList → Stream
  | EntryList.largestContentfulPaint _ => Stream.largestContentfulPaint
  | EntryList.firstInput _ => Stream.firstInput
  | EntryList.layoutShift _ => Stream.layoutShift
  | EntryList.paint _ => Stream.paint

/-- The streams in the order in which `setupObservers` subscribes to them. -/
def subscriptionOrder : List Stream :=
  [Stream.largestContentfulPaint, Stream.firstInput, Stream.layoutShift, Stream.paint]

/-- Position of a label in the order good < needs-improvement < poor. -/
def Label.rank : Label → Nat
  | Label.good => 0
  | Label.needsImprovement => 1
  | Label.poor => 2

/-- A duration or timestamp field is absent or non-negative. -/
def absentOrNonNegative : Option ℚ → Bool
  | none => true
  | some v => decide (0 ≤ v)

/-- JavaScript `a <= b` on computed numbers; false as soon as one side is `NaN`. -/
def JSNum.leNum : JSNum → JSNum → Bool
  | JSNum.num a, JSNum.num b => decide (a ≤ b)
  | JSNum.nan, _ => false
  | _, JSNum.nan => false
  | JSNum.inf s, JSNum.inf t => s || !t
  | JSNum.inf s, JSNum.num _ => s
  | JSNum.num _, JSNum.inf t => !t

/-- Every layout shift of the delivery that counts carries a value, and that value is
non-negative. Deliveries of the other streams satisfy this trivially. -/
def nonNegativeShifts : EntryList → Bool
  | EntryList.layoutShift es =>
    es.all (fun e =>
      e.hadRecentInput ||
        (match e.value with
          | some v => decide (0 ≤ v)
          | none => false))
  | _ => true

/-- The timestamps of the delivery are those of a host clock: start times are non-negative
and processing does not start before the event. -/
def orderedTimes : EntryList → Bool
  | EntryList.largestContentfulPaint es => es.all (fun e => decide (0 ≤ e.startTime))
  | EntryList.firstInput es => es.all (fun e => decide (e.startTime ≤ e.processingStart))
  | EntryList.layoutShift _ => true
  | EntryList.paint es => es.all (fun e => decide (0 ≤ e.startTime))

/-- The navigation entry of the host, if any, has its response start no earlier than its
request start. -/
def orderedNavigation (w : Window) : Bool :=
  match w.performance with
  | none => true
  | some performance =>
    match performance.timeline with
    | none => true
    | some timeline =>
      match timeline.navigation.head? with
      | some navigation => decide (navigation.requestStart ≤ navigation.responseStart)
      | none => true

/-- The left-to-right sum `((c + x1) + x2) + ...` as JavaScript computes it, every addition
rounded to a double. -/
def doubleSum (c : JSNum) (xs : List JSNum) : JSNum :=
  xs.foldl JSNum.add c

/-- A non-negative number that lies on a grid `2 ^ e` of the doubles (`e` at least -1074) with
a mantissa of at most `2 ^ 53`. Every non-negative finite result of `roundDouble` is one. -/
def onDoubleGrid (a : ℚ) : Prop :=
  ∃ e M : ℤ, -1074 ≤ e ∧ 0 ≤ M ∧ M ≤ 2 ^ 53 ∧ a = (M : ℚ) * (2:ℚ) ^ e

/-- A value of `cls` that is a non-negative double or `+Infinity`. -/
def nonNegativeOrInfinite (c : JSNum) : Prop :=
  c = JSNum.inf false ∨ ∃ q : ℚ, c = JSNum.num q ∧ onDoubleGrid q

/-! ## Auxiliary lemmas -/

theorem deliverAll_nil (m : Metrics) : deliverAll m [] = m := rfl

theorem deliverAll_cons (m : Metrics) (d : EntryList) (ds : List EntryList) :
    deliverAll m (d :: ds) = deliverAll (deliver m d).metrics ds := rfl

theorem deliverAll_append (m : Metrics) (ds ds2 : List EntryList) :
    deliverAll m (ds ++ ds2) = deliverAll (deliverAll m ds) ds2 := by
  simp [deliverAll, List.foldl_append]

/-! ### Rounding to a double -/

theorem floor_le_roundHalfEven (y : ℚ) : ⌊y⌋ ≤ roundHalfEven y := by
  unfold roundHalfEven
  split_ifs <;> omega

theorem roundHalfEven_le_floor_add_one (y : ℚ) : roundHalfEven y ≤ ⌊y⌋ + 1 := by
  unfold roundHalfEven
  split_ifs <;> omega

theorem roundHalfEven_intCast (n : ℤ) : roundHalfEven (n : ℚ) = n := by
  unfold roundHalfEven
  simp

theorem roundHalfEven_le_of_lt (y : ℚ) (N : ℤ) (h : y < N) : roundHalfEven y ≤ N := by
  have h1 : ⌊y⌋ < N := Int.floor_lt.mpr h
  have h2 := roundHalfEven_le_floor_add_one y
  omega

theorem roundHalfEven_eq (y : ℚ) (M : ℤ)
    (h : ((M : ℚ) - 1/2 < y ∧ y < M + 1/2) ∨ ((y = M + 1/2 ∨ y = M - 1/2) ∧ M % 2 = 0)) :
    roundHalfEven y = M := by
  rcases h with ⟨h1, h2⟩ | ⟨h1 | h1, hev⟩
  · by_cases hge : (M : ℚ) ≤ y
    · have hf : ⌊y⌋ = M := Int.floor_eq_iff.mpr ⟨hge, by linarith⟩
      unfold roundHalfEven
      rw [hf]
      have h3 : y - (M : ℚ) < 1/2 := by linarith
      rw [if_pos h3]
    · have hlt : y < M := lt_of_not_le hge
      have hf : ⌊y⌋ = M - 1 := Int.floor_eq_iff.mpr ⟨by push_cast; linarith, by push_cast; linarith⟩
      unfold roundHalfEven
      rw [hf]
      have h3 : ¬ (y - ((M - 1 : ℤ) : ℚ) < 1/2) := by push_cast; linarith
      have h4 : 1/2 < y - ((M - 1 : ℤ) : ℚ) := by push_cast; linarith
      simp only [h3, h4, if_false, if_true]
      omega
  · have hf : ⌊y⌋ = M := Int.floor_eq_iff.mpr ⟨by linarith, by linarith⟩
    unfold roundHalfEven
    rw [hf]
    have h3 : ¬ (y - (M : ℚ) < 1/2) := by linarith
    have h4 : ¬ (1/2 < y - (M : ℚ)) := by linarith
    simp only [h3, h4, if_false, hev, if_true]
  · have hf : ⌊y⌋ = M - 1 := Int.floor_eq_iff.mpr ⟨by push_cast; linarith, by push_cast; linarith⟩
    unfold roundHalfEven
    rw [hf]
    have h3 : ¬ (y - ((M - 1 : ℤ) : ℚ) < 1/2) := by push_cast; linarith
    have h4 : ¬ (1/2 < y - ((M - 1 : ℤ) : ℚ)) := by push_cast; linarith
    have h5 : ¬ ((M - 1) % 2 = 0) := by omega
    simp only [h3, h4, h5, if_false]
    omega

theorem ulpExp_ge (x : ℚ) : -1074 ≤ ulpExp x := le_max_right _ _

theorem lt_zpow_ulpExp (x : ℚ) (hx : 0 < x) : x < (2:ℚ) ^ (ulpExp x + 53) := by
  have h1 : x < (2:ℚ) ^ (Int.log 2 x + 1) := by
    have := Int.lt_zpow_succ_log_self (b := 2) (by norm_num) x
    simpa using this
  have h2 : Int.log 2 x + 1 ≤ ulpExp x + 53 := by
    have : Int.log 2 |x| - 52 ≤ ulpExp x := le_max_left _ _
    rw [abs_of_pos hx] at this
    omega
  exact lt_of_lt_of_le h1 (zpow_le_zpow_right₀ (by norm_num) h2)

theorem zpow_ulpExp_le (x : ℚ) (hx : 0 < x) (h : -1074 < ulpExp x) :
    (2:ℚ) ^ (ulpExp x + 52) ≤ x := by
  have he : ulpExp x = Int.log 2 x - 52 := by
    unfold ulpExp at h ⊢
    rw [abs_of_pos hx] at h ⊢
    rcases max_cases (Int.log 2 x - 52) (-1074) with ⟨h1, _⟩ | ⟨h1, _⟩
    · exact h1
    · omega
  rw [he]
  have := Int.zpow_log_le_self (b := 2) (by norm_num) hx
  simpa using this

theorem ulpExp_eq (x : ℚ) (e : ℤ) (hx : 0 < x) (he : -1074 ≤ e)
    (hlo : e = -1074 ∨ (2:ℚ) ^ (e + 52) ≤ x) (hhi : x < (2:ℚ) ^ (e + 53)) :
    ulpExp x = e := by
  have h1 : Int.log 2 x < e + 53 := by
    have := (Int.lt_zpow_iff_log_lt (b := 2) (by norm_num) hx).mp (by simpa using hhi)
    exact this
  unfold ulpExp
  rw [abs_of_pos hx]
  rcases hlo with h | h
  · rw [h] at h1 ⊢
    exact max_eq_right (by omega)
  · have h2 : e + 52 ≤ Int.log 2 x :=
      (Int.zpow_le_iff_le_log (b := 2) (by norm_num) hx).mp (by simpa using h)
    have : Int.log 2 x - 52 = e ∨ e < Int.log 2 x - 52 := by omega
    rcases this with h3 | h3
    · rw [h3]; exact max_eq_left he
    · omega

theorem roundDouble_zero : roundDouble 0 = JSNum.num 0 := by
  unfold roundDouble
  simp [roundHalfEven]

/-- Evaluation of `roundDouble` at a positive number from its exponent and mantissa. -/
theorem roundDouble_eq (x : ℚ) (e M : ℤ) (hx : 0 < x) (he : -1074 ≤ e)
    (hlo : e = -1074 ∨ (2:ℚ) ^ (e + 52) ≤ x) (hhi : x < (2:ℚ) ^ (e + 53))
    (hM : ((M : ℚ) - 1/2 < x / (2:ℚ) ^ e ∧ x / (2:ℚ) ^ e < M + 1/2) ∨
      ((x / (2:ℚ) ^ e = M + 1/2 ∨ x / (2:ℚ) ^ e = M - 1/2) ∧ M % 2 = 0))
    (hfin : (M : ℚ) * (2:ℚ) ^ e < (2:ℚ) ^ (1024:ℕ)) :
    roundDouble x = JSNum.num ((M : ℚ) * (2:ℚ) ^ e) := by
  have h1 : ulpExp x = e := ulpExp_eq x e hx he hlo hhi
  have h2 : roundHalfEven (x / (2:ℚ) ^ e) = M := roundHalfEven_eq _ M hM
  have hpow : (0:ℚ) < (2:ℚ) ^ e := zpow_pos (by norm_num) e
  have hM0 : 0 ≤ M := by
    rw [← h2]
    exact le_trans (Int.floor_nonneg.mpr (le_of_lt (div_pos hx hpow)))
      (floor_le_roundHalfEven _)
  have hr0 : (0:ℚ) ≤ (M : ℚ) * (2:ℚ) ^ e :=
    mul_nonneg (by exact_mod_cast hM0) (le_of_lt hpow)
  unfold roundDouble
  rw [h1, h2, abs_of_nonneg hr0, if_neg (not_le.mpr hfin)]

/-- A grid point below `x` stays below what `x` rounds to, when the unit `2 ^ E` used for `x`
is finer than the grid point's or `x` has reached `2 ^ (E + 52)`. -/
theorem grid_le_round (a x : ℚ) (e0 M E R : ℤ) (haeq : a = (M : ℚ) * (2:ℚ) ^ e0)
    (hM53 : M ≤ 2 ^ 53) (hax : a ≤ x) (hR : ⌊x / (2:ℚ) ^ E⌋ ≤ R)
    (hcase : E ≤ e0 ∨ (e0 < E ∧ (2:ℚ) ^ (E + 52) ≤ x)) :
    a ≤ (R : ℚ) * (2:ℚ) ^ E := by
  have hpow : (0:ℚ) < (2:ℚ) ^ E := zpow_pos (by norm_num) E
  have hpow0 : (0:ℚ) < (2:ℚ) ^ e0 := zpow_pos (by norm_num) e0
  rcases hcase with hle | ⟨hlt, hbig⟩
  · obtain ⟨n, hn⟩ := Int.eq_ofNat_of_zero_le (sub_nonneg.mpr hle)
    have he0 : e0 = (n : ℤ) + E := by omega
    obtain ⟨K, hK⟩ : ∃ K : ℤ, K = M * 2 ^ n := ⟨_, rfl⟩
    have hKq : (K : ℚ) = (M : ℚ) * (2:ℚ) ^ n := by
      rw [hK]
      push_cast
      ring
    have hsplit : (2:ℚ) ^ e0 = (2:ℚ) ^ n * (2:ℚ) ^ E := by
      rw [he0, zpow_add₀ (by norm_num), zpow_natCast]
    have haK : a = (K : ℚ) * (2:ℚ) ^ E := by
      rw [haeq, hsplit, hKq]
      ring
    have hle2 : (K : ℚ) ≤ x / (2:ℚ) ^ E := by
      rw [le_div_iff₀ hpow, ← haK]
      exact hax
    have hfl2 : K ≤ ⌊x / (2:ℚ) ^ E⌋ := Int.le_floor.mpr hle2
    have hKR : K ≤ R := le_trans hfl2 hR
    rw [haK]
    exact mul_le_mul_of_nonneg_right (by exact_mod_cast hKR) (le_of_lt hpow)
  · obtain ⟨P, hP⟩ : ∃ P : ℤ, P = 2 ^ 52 := ⟨_, rfl⟩
    have hPq : (P : ℚ) = (2:ℚ) ^ (52 : ℤ) := by
      rw [hP]
      norm_num
    have h2 : (2:ℚ) ^ (E + 52) = (P : ℚ) * (2:ℚ) ^ E := by
      rw [zpow_add₀ (by norm_num), hPq]
      ring
    have hle2 : (P : ℚ) ≤ x / (2:ℚ) ^ E := by
      rw [le_div_iff₀ hpow, ← h2]
      exact hbig
    have hfl2 : P ≤ ⌊x / (2:ℚ) ^ E⌋ := Int.le_floor.mpr hle2
    have hPR : P ≤ R := le_trans hfl2 hR
    have hbig2 : (2:ℚ) ^ (E + 52) ≤ (R : ℚ) * (2:ℚ) ^ E := by
      rw [h2]
      exact mul_le_mul_of_nonneg_right (by exact_mod_cast hPR) (le_of_lt hpow)
    have hMq : (M : ℚ) ≤ (2:ℚ) ^ (53 : ℤ) := by
      have h : (M : ℚ) ≤ ((2 ^ 53 : ℤ) : ℚ) := by exact_mod_cast hM53
      have h53 : ((2 ^ 53 : ℤ) : ℚ) = (2:ℚ) ^ (53 : ℤ) := by norm_num
      rwa [h53] at h
    have ha53 : a ≤ (2:ℚ) ^ (e0 + 53) := by
      rw [haeq, zpow_add₀ (by norm_num), mul_comm ((2:ℚ) ^ e0)]
      exact mul_le_mul_of_nonneg_right hMq (le_of_lt hpow0)
    have hmono : (2:ℚ) ^ (e0 + 53) ≤ (2:ℚ) ^ (E + 52) :=
      zpow_le_zpow_right₀ (by norm_num) (by omega)
    exact le_trans ha53 (le_trans hmono hbig2)

/-- The mantissa `x` rounds to is between 0 and `2 ^ 53`. -/
theorem roundHalfEven_mantissa (x : ℚ) (hx : 0 < x) :
    0 ≤ roundHalfEven (x / (2:ℚ) ^ ulpExp x) ∧ roundHalfEven (x / (2:ℚ) ^ ulpExp x) ≤ 2 ^ 53 := by
  have hpow : (0:ℚ) < (2:ℚ) ^ ulpExp x := zpow_pos (by norm_num) _
  constructor
  · exact le_trans (Int.floor_nonneg.mpr (le_of_lt (div_pos hx hpow)))
      (floor_le_roundHalfEven _)
  · obtain ⟨P, hP⟩ : ∃ P : ℤ, P = 2 ^ 53 := ⟨_, rfl⟩
    have hPq : (P : ℚ) = (2:ℚ) ^ (53 : ℤ) := by
      rw [hP]
      norm_num
    rw [← hP]
    apply roundHalfEven_le_of_lt
    rw [div_lt_iff₀ hpow, hPq, ← zpow_add₀ (by norm_num), add_comm]
    exact lt_zpow_ulpExp x hx

/-- Adding a non-negative number to a non-negative double gives `+Infinity` or a double that
is not smaller. -/
theorem roundDouble_add_nonneg (a v : ℚ) (ha : onDoubleGrid a) (hv : 0 ≤ v) :
    roundDouble (a + v) = JSNum.inf false ∨
      ∃ r : ℚ, roundDouble (a + v) = JSNum.num r ∧ a ≤ r ∧ onDoubleGrid r := by
  obtain ⟨e0, M, he0, hM0, hM53, haeq⟩ := ha
  have hpow0 : (0:ℚ) < (2:ℚ) ^ e0 := zpow_pos (by norm_num) e0
  have ha0 : 0 ≤ a := by
    rw [haeq]
    exact mul_nonneg (by exact_mod_cast hM0) (le_of_lt hpow0)
  rcases eq_or_lt_of_le (add_nonneg ha0 hv) with hx0 | hx
  · right
    have hazero : a = 0 := by linarith
    refine ⟨0, ?_, by rw [hazero], ⟨-1074, 0, le_refl _, le_refl _, by norm_num, by simp⟩⟩
    rw [← hx0]
    exact roundDouble_zero
  · obtain ⟨hR0, hR53⟩ := roundHalfEven_mantissa (a + v) hx
    unfold roundDouble
    split_ifs with hover
    · left
      have hneg : ¬ (a + v < 0) := not_lt.mpr (le_of_lt hx)
      simp [hneg]
    · right
      refine ⟨_, rfl, ?_, ⟨ulpExp (a + v), _, ulpExp_ge _, hR0, hR53, rfl⟩⟩
      apply grid_le_round a (a + v) e0 M (ulpExp (a + v)) _ haeq hM53 (by linarith)
        (floor_le_roundHalfEven _)
      rcases le_or_lt (ulpExp (a + v)) e0 with hle | hlt
      · exact Or.inl hle
      · exact Or.inr ⟨hlt, zpow_ulpExp_le (a + v) hx (by omega)⟩

theorem doubleSum_cons (c x : JSNum) (xs : List JSNum) :
    doubleSum c (x :: xs) = doubleSum (c.add x) xs := rfl

theorem doubleSum_append (c : JSNum) (xs ys : List JSNum) :
    doubleSum c (xs ++ ys) = doubleSum (doubleSum c xs) ys := by
  simp [doubleSum, List.foldl_append]

/-- On a batch whose qualifying shifts all carry a value, `clsObserver` ends normally, logs
the qualifying shifts in order and adds their values to `cls` one after the other. -/
theorem clsObserver_wellFormed (es : List LayoutShift) :
    ∀ (m : Metrics),
      (∀ e ∈ es, e.hadRecentInput = false → ∃ v, e.value = some v) →
      clsObserver m es =
        ⟨{ m with
            clsEntries := m.clsEntries ++ (qualifyingShifts es).map clsEntryOf
            cls := doubleSum m.cls
              ((qualifyingShifts es).map (fun e => JSNum.num (shiftValue e))) },
          Completion.normal⟩ := by
  induction es with
  | nil =>
    intro m _
    cases m
    simp [clsObserver, qualifyingShifts, doubleSum]
  | cons e rest ih =>
    intro m hv
    have hrest : ∀ x ∈ rest, x.hadRecentInput = false → ∃ v, x.value = some v :=
      fun x hx => hv x (List.mem_cons_of_mem _ hx)
    cases hin : e.hadRecentInput with
    | true =>
      rw [clsObserver]
      simp only [hin, Bool.not_true, Bool.false_eq_true, if_false]
      rw [ih m hrest]
      simp [qualifyingShifts, hin]
    | false =>
      obtain ⟨v, hval⟩ := hv e (List.mem_cons_self _ _) hin
      rw [clsObserver]
      simp only [hin, Bool.not_false, if_true, hval]
      rw [ih _ hrest]
      simp [qualifyingShifts, hin, shiftValue, hval, toNumber, doubleSum]

/-- Deliveries of well-formed layout-shift batches accumulate over the concatenated batches. -/
theorem deliverAll_layoutShift_wellFormed (batches : List (List LayoutShift)) :
    ∀ (m : Metrics),
      (∀ e ∈ batches.flatten, e.hadRecentInput = false → ∃ v, e.value = some v) →
      deliverAll m (batches.map EntryList.layoutShift) =
        { m with
          clsEntries := m.clsEntries ++ (qualifyingShifts batches.flatten).map clsEntryOf
          cls := doubleSum m.cls
            ((qualifyingShifts batches.flatten).map (fun e => JSNum.num (shiftValue e))) } := by
  induction batches with
  | nil =>
    intro m _
    cases m
    simp [deliverAll, qualifyingShifts, doubleSum]
  | cons b bs ih =>
    intro m hv
    have hb : ∀ e ∈ b, e.hadRecentInput = false → ∃ v, e.value = some v :=
      fun e he => hv e (by simp [he])
    have hbs : ∀ e ∈ bs.flatten, e.hadRecentInput = false → ∃ v, e.value = some v :=
      fun e he => hv e (by
        rw [List.flatten_cons]
        exact List.mem_append_right _ he)
    rw [List.map_cons, deliverAll_cons]
    simp only [deliver]
    rw [clsObserver_wellFormed b m hb]
    rw [ih _ hbs]
    simp [qualifyingShifts, List.filter_append, doubleSum_append]

/-- When no partial sum needs rounding, the double sum is the exact sum. -/
theorem doubleSum_exact (vs : List ℚ) :
    ∀ q : ℚ,
      (∀ k : ℕ, roundDouble (q + (vs.take k).sum) = JSNum.num (q + (vs.take k).sum)) →
      doubleSum (JSNum.num q) (vs.map JSNum.num) = JSNum.num (q + vs.sum) := by
  induction vs with
  | nil =>
    intro q _
    simp [doubleSum]
  | cons v vs ih =>
    intro q h
    have h1 : roundDouble (q + v) = JSNum.num (q + v) := by
      simpa using h 1
    rw [List.map_cons, doubleSum_cons]
    show doubleSum (roundDouble (q + v)) _ = _
    rw [h1, ih (q + v) (fun k => by simpa [add_assoc] using h (k + 1))]
    simp [add_assoc]

theorem qualifyingShifts_idem (es : List LayoutShift) :
    qualifyingShifts (qualifyingShifts es) = qualifyingShifts es := by
  simp [qualifyingShifts]

theorem flatten_map_qualifying (batches : List (List LayoutShift)) :
    (batches.map qualifyingShifts).flatten = qualifyingShifts batches.flatten := by
  induction batches with
  | nil => simp [qualifyingShifts]
  | cons b bs ih =>
    simp only [List.map_cons, List.flatten_cons, ih]
    simp [qualifyingShifts, List.filter_append]

theorem Scores.get_set_self (scores : Scores) (key : String) (value : Label) :
    (scores.set key value).get key = some value := by
  induction scores with
  | nil => simp [Scores.set, Scores.get]
  | cons kv rest ih =>
    obtain ⟨k, v⟩ := kv
    by_cases h : k = key
    · simp [Scores.set, Scores.get, h]
    · simp [Scores.set, Scores.get, h, ih]

theorem Scores.get_set_other (scores : Scores) (key other : String) (value : Label)
    (h : key ≠ other) : (scores.set key value).get other = scores.get other := by
  induction scores with
  | nil => simp [Scores.set, Scores.get, h]
  | cons kv rest ih =>
    obtain ⟨k, v⟩ := kv
    by_cases hk : k = key
    · subst hk
      simp [Scores.set, Scores.get, h]
    · by_cases ho : k = other
      · subst ho
        simp [Scores.set, Scores.get, hk]
      · simp [Scores.set, Scores.get, hk, ho, ih]

/-- Reading a property other than the one a three-way classification writes. -/
theorem Scores.get_classify_other (scores : Scores) (key other : String) (c1 c2 : Prop)
    [Decidable c1] [Decidable c2] (h : key ≠ other) :
    (if c1 then scores.set key Label.good
      else if c2 then scores.set key Label.needsImprovement
      else scores.set key Label.poor).get other = scores.get other := by
  split_ifs <;> exact Scores.get_set_other _ _ _ _ h

/-- Reading the property a three-way classification writes. -/
theorem Scores.get_classify_self (scores : Scores) (key : String) (c1 c2 : Prop)
    [Decidable c1] [Decidable c2] :
    (if c1 then scores.set key Label.good
      else if c2 then scores.set key Label.needsImprovement
      else scores.set key Label.poor).get key =
      some (if c1 then Label.good else if c2 then Label.needsImprovement else Label.poor) := by
  split_ifs <;> exact Scores.get_set_self _ _ _

theorem scores_get_lcp (m : Metrics) :
    (calculatePerformanceScores m).get "lcp" =
      m.lcp.map (fun v =>
        if v ≤ 2500 then Label.good else if v ≤ 4000 then Label.needsImprovement
        else Label.poor) := by
  have h1 : ("fid" : String) ≠ "lcp" := by decide
  have h2 : ("cls" : String) ≠ "lcp" := by decide
  have h3 : ("ttfb" : String) ≠ "lcp" := by decide
  unfold calculatePerformanceScores
  cases m.lcp <;> cases m.fid <;> cases m.ttfb <;>
    simp only [Option.map, Scores.get_classify_other _ _ _ _ _ h1,
      Scores.get_classify_other _ _ _ _ _ h2, Scores.get_classify_other _ _ _ _ _ h3,
      Scores.get_classify_self, Scores.get]

theorem scores_get_fid (m : Metrics) :
    (calculatePerformanceScores m).get "fid" =
      m.fid.map (fun v =>
        if v ≤ 100 then Label.good else if v ≤ 300 then Label.needsImprovement
        else Label.poor) := by
  have h2 : ("cls" : String) ≠ "fid" := by decide
  have h3 : ("ttfb" : String) ≠ "fid" := by decide
  have h4 : ("lcp" : String) ≠ "fid" := by decide
  unfold calculatePerformanceScores
  cases m.lcp <;> cases m.fid <;> cases m.ttfb <;>
    simp only [Option.map, Scores.get_classify_other _ _ _ _ _ h2,
      Scores.get_classify_other _ _ _ _ _ h3, Scores.get_classify_other _ _ _ _ _ h4,
      Scores.get_classify_self, Scores.get]

theorem scores_get_cls (m : Metrics) :
    (calculatePerformanceScores m).get "cls" =
      some (if m.cls.le 0.1 then Label.good else if m.cls.le 0.25 then Label.needsImprovement
        else Label.poor) := by
  have h3 : ("ttfb" : String) ≠ "cls" := by decide
  unfold calculatePerformanceScores
  cases m.lcp <;> cases m.fid <;> cases m.ttfb <;>
    simp only [Scores.get_classify_other _ _ _ _ _ h3, Scores.get_classify_self]

theorem scores_get_ttfb (m : Metrics) :
    (calculatePerformanceScores m).get "ttfb" =
      m.ttfb.map (fun v =>
        if v ≤ 800 then Label.good else if v ≤ 1800 then Label.needsImprovement
        else Label.poor) := by
  have h1 : ("lcp" : String) ≠ "ttfb" := by decide
  have h2 : ("fid" : String) ≠ "ttfb" := by decide
  have h3 : ("cls" : String) ≠ "ttfb" := by decide
  unfold calculatePerformanceScores
  cases m.lcp <;> cases m.fid <;> cases m.ttfb <;>
    simp only [Option.map, Scores.get_classify_other _ _ _ _ _ h1,
      Scores.get_classify_other _ _ _ _ _ h2, Scores.get_classify_other _ _ _ _ _ h3,
      Scores.get_classify_self, Scores.get]

theorem scores_get_other (m : Metrics) (key : String) (h1 : key ≠ "lcp") (h2 : key ≠ "fid")
    (h3 : key ≠ "cls") (h4 : key ≠ "ttfb") : (calculatePerformanceScores m).get key = none := by
  unfold calculatePerformanceScores
  cases m.lcp <;> cases m.fid <;> cases m.ttfb <;>
    simp only [Scores.get_classify_other _ _ _ _ _ (Ne.symm h1),
      Scores.get_classify_other _ _ _ _ _ (Ne.symm h2),
      Scores.get_classify_other _ _ _ _ _ (Ne.symm h3),
      Scores.get_classify_other _ _ _ _ _ (Ne.symm h4), Scores.get]

/-- A three-way classification against bounds `a ≤ b` returns each label on exactly its
interval. -/
theorem classify_iff (a b v : ℚ) (hab : a ≤ b) :
    ((if v ≤ a then Label.good else if v ≤ b then Label.needsImprovement else Label.poor)
        = Label.good ↔ v ≤ a) ∧
      ((if v ≤ a then Label.good else if v ≤ b then Label.needsImprovement else Label.poor)
        = Label.needsImprovement ↔ a < v ∧ v ≤ b) ∧
      ((if v ≤ a then Label.good else if v ≤ b then Label.needsImprovement else Label.poor)
        = Label.poor ↔ b < v) := by
  by_cases h1 : v ≤ a
  · have h2 : ¬ a < v := not_lt.mpr h1
    have h3 : ¬ b < v := not_lt.mpr (le_trans h1 hab)
    simp [h1, h2, h3]
  · by_cases h2 : v ≤ b
    · have h3 : ¬ b < v := not_lt.mpr h2
      simp [h1, h2, h3, not_le.mp h1]
    · simp [h1, h2, not_le.mp h1, not_le.mp h2]

/-! ### What each callback writes -/

theorem orZero_some (v : ℚ) : orZero (some v) = v := by
  show (if v = 0 then 0 else v) = v
  split_ifs with h
  · exact h.symm
  · rfl

theorem fidStep_eq (m : Metrics) (e : EventTiming) :
    fidStep m e =
      { m with
        fid := if e.name = "first-input" then some (delay e) else m.fid
        inp := if e.hasInteraction then some (max (orZero m.inp) (delay e)) else m.inp } := by
  cases m
  unfold fidStep delay
  by_cases h1 : e.name = "first-input" <;> by_cases h2 : e.hasInteraction = true <;>
    simp [h1, h2]

/-- The first-input callback writes `fid` and `inp` only. -/
theorem fidObserver_frame (es : List EventTiming) (m : Metrics) :
    ∃ f i, es.foldl fidStep m = { m with fid := f, inp := i } := by
  induction es generalizing m with
  | nil => exact ⟨m.fid, m.inp, rfl⟩
  | cons e rest ih =>
    obtain ⟨f, i, h⟩ := ih (fidStep m e)
    rw [List.foldl_cons, h, fidStep_eq]
    exact ⟨f, i, rfl⟩

/-- The paint callback writes `fcp` only. -/
theorem paintObserver_frame (es : List PaintTiming) (m : Metrics) :
    ∃ f, es.foldl paintStep m = { m with fcp := f } := by
  induction es generalizing m with
  | nil => exact ⟨m.fcp, rfl⟩
  | cons e rest ih =>
    obtain ⟨f, h⟩ := ih (paintStep m e)
    rw [List.foldl_cons, h]
    unfold paintStep
    split_ifs
    · exact ⟨f, rfl⟩
    · exact ⟨f, rfl⟩

/-- The layout-shift callback writes `cls` and `clsEntries` only. -/
theorem clsObserver_frame (es : List LayoutShift) (m : Metrics) :
    ∃ c l, (clsObserver m es).metrics = { m with cls := c, clsEntries := l } := by
  induction es generalizing m with
  | nil => exact ⟨m.cls, m.clsEntries, rfl⟩
  | cons e rest ih =>
    rw [clsObserver]
    cases hin : e.hadRecentInput with
    | true => simpa using ih m
    | false =>
      cases hval : e.value with
      | none => exact ⟨_, _, rfl⟩
      | some v =>
        simp only [Bool.not_false, if_true]
        obtain ⟨c, l, h⟩ := ih
          { m with
            clsEntries := m.clsEntries ++ [clsEntryOf e]
            cls := m.cls.add (toNumber (some v)) }
        exact ⟨c, l, h⟩

/-- The largest-contentful-paint callback writes `lcp` only. -/
theorem lcpObserver_metrics (es : List LargestContentfulPaint) (m : Metrics) :
    (lcpObserver m es).metrics =
      { m with
        lcp :=
          match es.getLast? with
          | some r => some r.startTime
          | none => m.lcp } := by
  unfold lcpObserver
  cases es.getLast? <;> rfl

/-- Only the largest-contentful-paint callback changes `lcp`. -/
theorem deliver_lcp (m : Metrics) (d : EntryList) :
    (deliver m d).metrics.lcp =
      match d with
      | EntryList.largestContentfulPaint es =>
        (match es.getLast? with
          | some r => some r.startTime
          | none => m.lcp)
      | _ => m.lcp := by
  cases d with
  | largestContentfulPaint es => simp [deliver, lcpObserver_metrics]
  | firstInput es =>
    obtain ⟨f, i, h⟩ := fidObserver_frame es m
    simp [deliver, fidObserver, h]
  | layoutShift es =>
    obtain ⟨c, l, h⟩ := clsObserver_frame es m
    simp [deliver, h]
  | paint es =>
    obtain ⟨f, h⟩ := paintObserver_frame es m
    simp [deliver, paintObserver, h]

/-- No callback changes `ttfb`. -/
theorem deliver_ttfb (m : Metrics) (d : EntryList) : (deliver m d).metrics.ttfb = m.ttfb := by
  cases d with
  | largestContentfulPaint es => simp [deliver, lcpObserver_metrics]
  | firstInput es =>
    obtain ⟨f, i, h⟩ := fidObserver_frame es m
    simp [deliver, fidObserver, h]
  | layoutShift es =>
    obtain ⟨c, l, h⟩ := clsObserver_frame es m
    simp [deliver, h]
  | paint es =>
    obtain ⟨f, h⟩ := paintObserver_frame es m
    simp [deliver, paintObserver, h]

theorem deliverAll_ttfb (ds : List EntryList) (m : Metrics) :
    (deliverAll m ds).ttfb = m.ttfb := by
  induction ds generalizing m with
  | nil => rfl
  | cons d ds ih => rw [deliverAll_cons, ih, deliver_ttfb]

/-- After a sequence of deliveries `lcp` is the start time of the last
largest-contentful-paint record delivered, or unchanged if none was. -/
theorem deliverAll_lcp (ds : List EntryList) (m : Metrics) :
    (deliverAll m ds).lcp =
      match (lcpRecords ds).getLast? with
      | some r => some r.startTime
      | none => m.lcp := by
  induction ds generalizing m with
  | nil => rfl
  | cons d ds ih =>
    rw [deliverAll_cons, ih, deliver_lcp]
    cases d with
    | largestContentfulPaint es =>
      simp only [lcpRecords, List.getLast?_append]
      cases (lcpRecords ds).getLast? <;> simp
    | firstInput es => simp only [lcpRecords]
    | layoutShift es => simp only [lcpRecords]
    | paint es => simp only [lcpRecords]

/-- The value of `fid` after a batch of first-input-stream records. -/
theorem fidObserver_fid (es : List EventTiming) (m : Metrics) :
    (es.foldl fidStep m).fid =
      match (es.filter (fun e => e.name = "first-input")).getLast? with
      | some e => some (delay e)
      | none => m.fid := by
  induction es using List.reverseRecOn with
  | nil => rfl
  | append_singleton es e ih =>
    rw [List.foldl_append, List.foldl_cons, List.foldl_nil, fidStep_eq, List.filter_append,
      List.getLast?_append]
    by_cases h : e.name = "first-input"
    · simp [List.filter, h]
    · simp [List.filter, h, ih]

theorem paintStep_fcp (m : Metrics) (e : PaintTiming) :
    (paintStep m e).fcp = if e.name = "first-contentful-paint" then some e.startTime else m.fcp := by
  unfold paintStep
  split_ifs <;> rfl

/-- The value of `fcp` after a batch of paint records. -/
theorem paintObserver_fcp (es : List PaintTiming) (m : Metrics) :
    (es.foldl paintStep m).fcp =
      match (es.filter (fun e => e.name = "first-contentful-paint")).getLast? with
      | some e => some e.startTime
      | none => m.fcp := by
  induction es using List.reverseRecOn with
  | nil => rfl
  | append_singleton es e ih =>
    rw [List.foldl_append, List.foldl_cons, List.foldl_nil, paintStep_fcp, List.filter_append,
      List.getLast?_append]
    by_cases h : e.name = "first-contentful-paint"
    · simp [List.filter, h]
    · simp [List.filter, h, ih]

/-! ### Running maximum of the interaction delay -/

theorem foldl_max_assoc (ds : List ℚ) (a b : ℚ) :
    ds.foldl max (max a b) = max a (ds.foldl max b) := by
  induction ds generalizing b with
  | nil => rfl
  | cons d ds ih => rw [List.foldl_cons, List.foldl_cons, max_assoc, ih]

theorem le_foldl_max (ds : List ℚ) (a : ℚ) : a ≤ ds.foldl max a := by
  induction ds generalizing a with
  | nil => exact le_refl a
  | cons d ds ih => exact le_trans (le_max_left a d) (ih (max a d))

theorem mem_le_foldl_max (ds : List ℚ) (a d : ℚ) (hd : d ∈ ds) : d ≤ ds.foldl max a := by
  induction ds generalizing a with
  | nil => cases hd
  | cons x ds ih =>
    rw [List.foldl_cons]
    rcases List.mem_cons.mp hd with h | h
    · subst h
      exact le_trans (le_max_right a d) (le_foldl_max ds (max a d))
    · exact ih (max a x) h

theorem foldl_max_attained (ds : List ℚ) (a : ℚ) :
    ds.foldl max a = a ∨ ds.foldl max a ∈ ds := by
  induction ds generalizing a with
  | nil => exact Or.inl rfl
  | cons x ds ih =>
    rw [List.foldl_cons]
    rcases ih (max a x) with h | h
    · rcases max_choice a x with hm | hm
      · exact Or.inl (by rw [h, hm])
      · exact Or.inr (by rw [h, hm]; exact List.mem_cons_self _ _)
    · exact Or.inr (List.mem_cons_of_mem _ h)

/-- Every delay of a sequence is at most its `maxDelay`. -/
theorem delay_le_maxDelay (es : List EventTiming) (e : EventTiming) (he : e ∈ es) :
    delay e ≤ maxDelay es := by
  cases es with
  | nil => cases he
  | cons x rest =>
    rcases List.mem_cons.mp he with h | h
    · subst h
      exact le_foldl_max _ _
    · exact mem_le_foldl_max _ _ _ (List.mem_map_of_mem delay h)

/-- The `maxDelay` of a non-empty sequence is the delay of one of its records. -/
theorem maxDelay_attained (es : List EventTiming) (hne : es ≠ []) :
    ∃ e ∈ es, maxDelay es = delay e := by
  cases es with
  | nil => exact absurd rfl hne
  | cons x rest =>
    rcases foldl_max_attained (rest.map delay) (delay x) with h | h
    · exact ⟨x, List.mem_cons_self _ _, h⟩
    · obtain ⟨e, he, hd⟩ := List.mem_map.mp h
      exact ⟨e, List.mem_cons_of_mem _ he, hd.symm⟩

theorem fidStep_inp (m : Metrics) (e : EventTiming) :
    (fidStep m e).inp =
      if e.hasInteraction then some (max (orZero m.inp) (delay e)) else m.inp := by
  rw [fidStep_eq]

/-- After a non-empty run of interaction records `inp` is the running maximum of their
delays, started at `inp || 0`. -/
theorem foldl_fidStep_inp (rest : List EventTiming) (e : EventTiming) (m : Metrics)
    (hall : ∀ x ∈ e :: rest, x.hasInteraction = true) :
    ((e :: rest).foldl fidStep m).inp =
      some (((e :: rest).map delay).foldl max (orZero m.inp)) := by
  induction rest generalizing m e with
  | nil =>
    have he : e.hasInteraction = true := hall e (List.mem_cons_self _ _)
    simp [fidStep_inp, he]
  | cons e2 rest ih =>
    have he : e.hasInteraction = true := hall e (List.mem_cons_self _ _)
    have hrest : ∀ x ∈ e2 :: rest, x.hasInteraction = true :=
      fun x hx => hall x (List.mem_cons_of_mem _ hx)
    rw [List.foldl_cons, ih e2 (fidStep m e) hrest, fidStep_inp]
    simp [he, orZero_some]

/-- The first-input callback never throws, so batches of it compose into one loop. -/
theorem deliverAll_firstInput (batches : List (List EventTiming)) (m : Metrics) :
    deliverAll m (batches.map EntryList.firstInput) = batches.flatten.foldl fidStep m := by
  induction batches generalizing m with
  | nil => rfl
  | cons b bs ih =>
    rw [List.map_cons, deliverAll_cons, ih, List.flatten_cons, List.foldl_append]
    rfl

/-! ### Resource times -/

theorem foldl_resource_doubleSum (rs : List ResourceTiming) (c : JSNum) :
    rs.foldl (fun sum r => sum.add (jsMinus r.responseEnd r.startTime)) c =
      doubleSum c (rs.map (fun r => jsMinus r.responseEnd r.startTime)) := by
  simp [doubleSum, List.foldl_map]

/-- The mean `resourceSummaryOf` computes for a non-empty list. -/
theorem resourceSummaryOf_average (rs : List ResourceTiming) (hne : rs ≠ []) :
    (resourceSummaryOf rs).averageResourceTime =
      (doubleSum (JSNum.num 0) (rs.map (fun r => jsMinus r.responseEnd r.startTime))).div
        (JSNum.num rs.length) := by
  have hlen : rs.length > 0 := List.length_pos.mpr hne
  simp only [resourceSummaryOf, hlen, if_true, foldl_resource_doubleSum]

/-- When no difference, partial sum or quotient needs rounding, the computed mean is the exact
arithmetic mean. -/
theorem resourceSummaryOf_average_exact (rs : List ResourceTiming) (hne : rs ≠ [])
    (hdiff : ∀ x ∈ rs, roundDouble (x.responseEnd - x.startTime) =
      JSNum.num (x.responseEnd - x.startTime))
    (hsum : ∀ k : ℕ, roundDouble (((rs.map resourceTime).take k).sum) =
      JSNum.num (((rs.map resourceTime).take k).sum))
    (hquot : roundDouble ((rs.map resourceTime).sum / rs.length) =
      JSNum.num ((rs.map resourceTime).sum / rs.length)) :
    (resourceSummaryOf rs).averageResourceTime =
      JSNum.num ((rs.map resourceTime).sum / rs.length) := by
  have hmap : rs.map (fun r => jsMinus r.responseEnd r.startTime) =
      (rs.map resourceTime).map JSNum.num := by
    rw [List.map_map]
    apply List.map_congr_left
    intro x hx
    exact hdiff x hx
  have hlen : (rs.length : ℚ) ≠ 0 := by
    have : rs.length ≠ 0 := fun h => hne (List.length_eq_zero.mp h)
    exact_mod_cast this
  rw [resourceSummaryOf_average rs hne, hmap,
    doubleSum_exact _ 0 (fun k => by simpa using hsum k), zero_add]
  show jsDiv _ _ = _
  unfold jsDiv
  rw [if_neg hlen]
  exact hquot

theorem JSNum.add_nan (a : JSNum) : a.add JSNum.nan = JSNum.nan := by
  cases a <;> rfl

/-- Without a navigation entry `calculateTTFB` changes nothing. -/
theorem calculateTTFB_no_navigation (w : Window) (m : Metrics)
    (hnav : ∀ p t, w.performance = some p → p.timeline = some t → t.navigation = []) :
    calculateTTFB w m = m := by
  unfold calculateTTFB
  split
  · rfl
  · rename_i p hp
    split
    · rfl
    · rename_i t ht
      rw [hnav p t hp ht]
      rfl

/-- The constructor leaves `ttfb` absent when the host has no navigation entry. -/
theorem newCollector_ttfb_none (w : Window)
    (hnav : ∀ p t, w.performance = some p → p.timeline = some t → t.navigation = []) :
    (newCollector w).metrics.ttfb = none := by
  show (calculateTTFB w initialMetrics).ttfb = none
  rw [calculateTTFB_no_navigation w initialMetrics hnav]
  rfl

/-- On a host with a performance timeline `getDetailedMetrics` returns this report. -/
theorem getDetailedMetrics_ok (w : Window) (p : Performance) (t : Timeline) (m : Metrics)
    (hp : w.performance = some p) (ht : p.timeline = some t) :
    getDetailedMetrics w m =
      Except.ok
        { coreWebVitals :=
            { lcp := m.lcp, fid := m.fid, cls := m.cls, fcp := m.fcp, inp := m.inp,
              ttfb := m.ttfb }
          timingBreakdown := t.navigation.head?.map timingBreakdownOf
          resourceSummary := resourceSummaryOf t.resource
          memory := p.memory.map memoryReportOf
          layoutShifts := m.clsEntries
          performanceScores := calculatePerformanceScores m } := by
  simp only [getDetailedMetrics, hp, ht]

/-! ### The fields each callback reads and writes -/

/-- The largest-contentful-paint callback rewrites `lcp` as a function of `lcp` alone. -/
theorem lcpObserver_effect (es : List LargestContentfulPaint) :
    ∃ A : Option ℚ → Option ℚ, ∀ m : Metrics,
      (lcpObserver m es).metrics = { m with lcp := A m.lcp } := by
  refine ⟨fun l => match es.getLast? with
    | some r => some r.startTime
    | none => l, fun m => ?_⟩
  exact lcpObserver_metrics es m

/-- The first-input callback rewrites `fid` as a function of `fid` and `inp` as a function of
`inp`, and nothing else. -/
theorem fidObserver_effect (es : List EventTiming) :
    ∃ B1 B2 : Option ℚ → Option ℚ, ∀ m : Metrics,
      (fidObserver m es).metrics = { m with fid := B1 m.fid, inp := B2 m.inp } := by
  induction es with
  | nil => exact ⟨id, id, fun m => rfl⟩
  | cons e rest ih =>
    obtain ⟨B1, B2, h⟩ := ih
    refine ⟨fun f => B1 (if e.name = "first-input" then some (delay e) else f),
      fun i => B2 (if e.hasInteraction then some (max (orZero i) (delay e)) else i),
      fun m => ?_⟩
    have h2 := h (fidStep m e)
    simp only [fidObserver, List.foldl_cons] at h2 ⊢
    rw [h2, fidStep_eq]

/-- The layout-shift callback rewrites `cls` and `clsEntries` as a function of those two
fields, and nothing else. -/
theorem clsObserver_effect (es : List LayoutShift) :
    ∃ C : JSNum → List ClsEntry → JSNum × List ClsEntry, ∀ m : Metrics,
      (clsObserver m es).metrics =
        { m with
          cls := (C m.cls m.clsEntries).1
          clsEntries := (C m.cls m.clsEntries).2 } := by
  induction es with
  | nil => exact ⟨fun c l => (c, l), fun m => rfl⟩
  | cons e rest ih =>
    obtain ⟨C, h⟩ := ih
    cases hin : e.hadRecentInput with
    | true =>
      refine ⟨C, fun m => ?_⟩
      rw [clsObserver]
      simpa [hin] using h m
    | false =>
      cases hval : e.value with
      | none =>
        refine ⟨fun c l => (c.add (toNumber none), l ++ [clsEntryOf e]), fun m => ?_⟩
        rw [clsObserver]
        simp [hin, hval]
      | some v =>
        refine ⟨fun c l => C (c.add (toNumber (some v))) (l ++ [clsEntryOf e]), fun m => ?_⟩
        rw [clsObserver]
        simp only [hin, hval, Bool.not_false, if_true]
        exact h _

/-- The paint callback rewrites `fcp` as a function of `fcp` alone. -/
theorem paintObserver_effect (es : List PaintTiming) :
    ∃ D : Option ℚ → Option ℚ, ∀ m : Metrics,
      (paintObserver m es).metrics = { m with fcp := D m.fcp } := by
  induction es with
  | nil => exact ⟨id, fun m => rfl⟩
  | cons e rest ih =>
    obtain ⟨D, h⟩ := ih
    refine ⟨fun f => D (if e.name = "first-contentful-paint" then some e.startTime else f),
      fun m => ?_⟩
    have h2 := h (paintStep m e)
    simp only [paintObserver, List.foldl_cons] at h2 ⊢
    rw [h2]
    unfold paintStep
    split_ifs <;> rfl

/-! ### Subscription -/

/-- The observers a fresh collector holds: the streams whose `observe` call did not throw, in
subscription order, or none when the host has no `PerformanceObserver`. -/
theorem newCollector_observers (w : Window) :
    (newCollector w).observers =
      if w.hasPerformanceObserver then
        subscriptionOrder.filter (fun s => !w.observeThrows s)
      else [] := by
  unfold newCollector setupObservers subscribe subscriptionOrder
  cases h0 : w.hasPerformanceObserver <;>
    cases h1 : w.observeThrows Stream.largestContentfulPaint <;>
    cases h2 : w.observeThrows Stream.firstInput <;>
    cases h3 : w.observeThrows Stream.layoutShift <;>
    cases h4 : w.observeThrows Stream.paint <;> simp [List.filter, h1, h2, h3, h4]

theorem subscriptionOrder_nodup : subscriptionOrder.Nodup := by
  unfold subscriptionOrder
  decide

theorem newCollector_observers_nodup (w : Window) : (newCollector w).observers.Nodup := by
  rw [newCollector_observers]
  split_ifs
  · exact subscriptionOrder_nodup.filter _
  · exact List.nodup_nil

/-! ### Monotonicity and sign of the accumulated fields -/

theorem calculateTTFB_frame (w : Window) (m : Metrics) :
    ∃ t : Option ℚ, calculateTTFB w m = { m with ttfb := t } := by
  unfold calculateTTFB
  split
  · exact ⟨m.ttfb, rfl⟩
  · split
    · exact ⟨m.ttfb, rfl⟩
    · split
      · exact ⟨_, rfl⟩
      · exact ⟨m.ttfb, rfl⟩

/-- The metrics of a fresh collector are the initial ones up to `ttfb`. -/
theorem newCollector_metrics (w : Window) :
    ∃ t : Option ℚ, (newCollector w).metrics = { initialMetrics with ttfb := t } :=
  calculateTTFB_frame w initialMetrics

theorem nonNegativeShifts_layoutShift (es : List LayoutShift)
    (h : nonNegativeShifts (EntryList.layoutShift es) = true) :
    ∀ e ∈ es, e.hadRecentInput = false → ∃ v, e.value = some v ∧ 0 ≤ v := by
  intro e he hin
  have h2 := (List.all_eq_true.mp h) e he
  simp only [hin, Bool.false_or] at h2
  cases hval : e.value with
  | none => simp [hval] at h2
  | some v =>
    simp only [hval, decide_eq_true_eq] at h2
    exact ⟨v, rfl, h2⟩

theorem onDoubleGrid_zero : onDoubleGrid 0 :=
  ⟨-1074, 0, le_refl _, le_refl _, by norm_num, by simp⟩

theorem onDoubleGrid_nonneg (a : ℚ) (h : onDoubleGrid a) : 0 ≤ a := by
  obtain ⟨e, M, _, hM0, _, haeq⟩ := h
  rw [haeq]
  exact mul_nonneg (by exact_mod_cast hM0) (le_of_lt (zpow_pos (by norm_num) e))

/-- A non-negative double or `+Infinity` is at least 0 in JavaScript's order. -/
theorem leNum_zero_of_nonNegativeOrInfinite (c : JSNum) (h : nonNegativeOrInfinite c) :
    JSNum.leNum (JSNum.num 0) c = true := by
  rcases h with h | ⟨q, h, hq⟩
  · rw [h]
    rfl
  · rw [h]
    simpa [JSNum.leNum] using onDoubleGrid_nonneg q hq

theorem leNum_refl_of_nonNegativeOrInfinite (c : JSNum) (h : nonNegativeOrInfinite c) :
    JSNum.leNum c c = true := by
  rcases h with h | ⟨q, h, _⟩
  · rw [h]
    rfl
  · rw [h]
    simp [JSNum.leNum]

theorem leNum_trans_of_nonNegativeOrInfinite (a b c : JSNum)
    (ha : nonNegativeOrInfinite a) (hb : nonNegativeOrInfinite b)
    (hc : nonNegativeOrInfinite c) (hab : JSNum.leNum a b = true)
    (hbc : JSNum.leNum b c = true) : JSNum.leNum a c = true := by
  rcases ha with ha | ⟨qa, ha, _⟩ <;> rcases hb with hb | ⟨qb, hb, _⟩ <;>
    rcases hc with hc | ⟨qc, hc, _⟩ <;> subst ha <;> subst hb <;> subst hc <;>
    simp_all [JSNum.leNum]
  exact le_trans hab hbc

/-- Adding a non-negative value keeps `cls` a non-negative double or `+Infinity` and does not
lower it. -/
theorem add_nonneg_of_nonNegativeOrInfinite (c : JSNum) (v : ℚ)
    (hc : nonNegativeOrInfinite c) (hv : 0 ≤ v) :
    nonNegativeOrInfinite (c.add (JSNum.num v)) ∧
      JSNum.leNum c (c.add (JSNum.num v)) = true := by
  rcases hc with hc | ⟨q, hc, hq⟩
  · subst hc
    exact ⟨Or.inl rfl, rfl⟩
  · subst hc
    show nonNegativeOrInfinite (roundDouble (q + v)) ∧
      JSNum.leNum (JSNum.num q) (roundDouble (q + v)) = true
    rcases roundDouble_add_nonneg q v hq hv with h | ⟨r, h, hle, hr⟩
    · rw [h]
      exact ⟨Or.inl rfl, rfl⟩
    · rw [h]
      exact ⟨Or.inr ⟨r, rfl, hr⟩, by simpa [JSNum.leNum] using hle⟩

theorem doubleSum_nonneg (vs : List ℚ) :
    ∀ c : JSNum, nonNegativeOrInfinite c → (∀ v ∈ vs, 0 ≤ v) →
      nonNegativeOrInfinite (doubleSum c (vs.map JSNum.num)) ∧
        JSNum.leNum c (doubleSum c (vs.map JSNum.num)) = true := by
  induction vs with
  | nil =>
    intro c hc _
    exact ⟨hc, leNum_refl_of_nonNegativeOrInfinite c hc⟩
  | cons v vs ih =>
    intro c hc hvs
    obtain ⟨h1, h2⟩ :=
      add_nonneg_of_nonNegativeOrInfinite c v hc (hvs v (List.mem_cons_self _ _))
    obtain ⟨h3, h4⟩ := ih (c.add (JSNum.num v)) h1
      (fun x hx => hvs x (List.mem_cons_of_mem _ hx))
    rw [List.map_cons, doubleSum_cons]
    exact ⟨h3, leNum_trans_of_nonNegativeOrInfinite _ _ _ hc h1 h3 h2 h4⟩

/-- A delivery whose counted shifts are non-negative keeps `cls` a non-negative double or
`+Infinity` and does not lower it. -/
theorem deliver_cls_mono (m : Metrics) (d : EntryList) (hc : nonNegativeOrInfinite m.cls)
    (hd : nonNegativeShifts d = true) :
    nonNegativeOrInfinite (deliver m d).metrics.cls ∧
      JSNum.leNum m.cls (deliver m d).metrics.cls = true := by
  cases d with
  | largestContentfulPaint es =>
    obtain ⟨A, h⟩ := lcpObserver_effect es
    simp only [deliver, h]
    exact ⟨hc, leNum_refl_of_nonNegativeOrInfinite _ hc⟩
  | firstInput es =>
    obtain ⟨B1, B2, h⟩ := fidObserver_effect es
    simp only [deliver, h]
    exact ⟨hc, leNum_refl_of_nonNegativeOrInfinite _ hc⟩
  | paint es =>
    obtain ⟨D, h⟩ := paintObserver_effect es
    simp only [deliver, h]
    exact ⟨hc, leNum_refl_of_nonNegativeOrInfinite _ hc⟩
  | layoutShift es =>
    have hv := nonNegativeShifts_layoutShift es hd
    have hwf : ∀ e ∈ es, e.hadRecentInput = false → ∃ v, e.value = some v :=
      fun e he hin => (hv e he hin).imp (fun _ h => h.1)
    have hnn : ∀ x ∈ (qualifyingShifts es).map shiftValue, 0 ≤ x := by
      intro x hx
      obtain ⟨e, he, rfl⟩ := List.mem_map.mp hx
      have hmem : e ∈ es := List.mem_of_mem_filter he
      have hin : e.hadRecentInput = false := by
        have := (List.mem_filter.mp he).2
        simpa using this
      obtain ⟨v, hval, hv0⟩ := hv e hmem hin
      simpa [shiftValue, hval] using hv0
    have hmap : (qualifyingShifts es).map (fun e => JSNum.num (shiftValue e)) =
        ((qualifyingShifts es).map shiftValue).map JSNum.num := by
      rw [List.map_map]
      rfl
    simp only [deliver]
    rw [clsObserver_wellFormed es m hwf, hmap]
    exact doubleSum_nonneg _ m.cls hc hnn

/-- Through deliveries whose counted shifts are non-negative, `cls` stays a non-negative
double or `+Infinity`. -/
theorem reached_cls_nonneg (w : Window) (ds : List EntryList)
    (hds : ∀ d ∈ ds, nonNegativeShifts d = true) :
    nonNegativeOrInfinite (reached w ds).cls := by
  have key : ∀ (ds : List EntryList) (m : Metrics), nonNegativeOrInfinite m.cls →
      (∀ d ∈ ds, nonNegativeShifts d = true) →
      nonNegativeOrInfinite (deliverAll m ds).cls := by
    intro ds
    induction ds with
    | nil => exact fun m hc _ => hc
    | cons d ds ih =>
      intro m hc hall
      rw [deliverAll_cons]
      exact ih _ (deliver_cls_mono m d hc (hall d (List.mem_cons_self _ _))).1
        (fun x hx => hall x (List.mem_cons_of_mem _ hx))
  obtain ⟨t, ht⟩ := newCollector_metrics w
  exact key ds _ (by rw [ht]; exact Or.inr ⟨0, rfl, onDoubleGrid_zero⟩) hds

theorem fidStep_inp_mono (m : Metrics) (e : EventTiming) (v : ℚ) (hv : m.inp = some v) :
    ∃ v2 : ℚ, (fidStep m e).inp = some v2 ∧ v ≤ v2 := by
  rw [fidStep_inp, hv, orZero_some]
  split_ifs
  · exact ⟨_, rfl, le_max_left _ _⟩
  · exact ⟨v, rfl, le_refl v⟩

theorem foldl_fidStep_inp_mono (es : List EventTiming) (m : Metrics) (v : ℚ)
    (hv : m.inp = some v) : ∃ v2 : ℚ, (es.foldl fidStep m).inp = some v2 ∧ v ≤ v2 := by
  induction es generalizing m v with
  | nil => exact ⟨v, hv, le_refl v⟩
  | cons e rest ih =>
    obtain ⟨v1, h1, hle1⟩ := fidStep_inp_mono m e v hv
    obtain ⟨v2, h2, hle2⟩ := ih (fidStep m e) v1 h1
    exact ⟨v2, h2, le_trans hle1 hle2⟩

/-- No delivery unsets or lowers a set `inp`. -/
theorem deliver_inp_mono (m : Metrics) (d : EntryList) (v : ℚ) (hv : m.inp = some v) :
    ∃ v2 : ℚ, (deliver m d).metrics.inp = some v2 ∧ v ≤ v2 := by
  cases d with
  | largestContentfulPaint es =>
    obtain ⟨A, h⟩ := lcpObserver_effect es
    exact ⟨v, by simp [deliver, h, hv], le_refl v⟩
  | firstInput es => exact foldl_fidStep_inp_mono es m v hv
  | layoutShift es =>
    obtain ⟨C, h⟩ := clsObserver_effect es
    exact ⟨v, by simp [deliver, h, hv], le_refl v⟩
  | paint es =>
    obtain ⟨D, h⟩ := paintObserver_effect es
    exact ⟨v, by simp [deliver, h, hv], le_refl v⟩

theorem orZero_nonneg (x : Option ℚ) (h : absentOrNonNegative x = true) : 0 ≤ orZero x := by
  cases x with
  | none => exact le_refl 0
  | some v =>
    rw [orZero_some]
    simpa [absentOrNonNegative] using h

theorem fidStep_inp_nonneg (m : Metrics) (e : EventTiming)
    (h : absentOrNonNegative m.inp = true) : absentOrNonNegative (fidStep m e).inp = true := by
  rw [fidStep_inp]
  split_ifs
  · simp only [absentOrNonNegative, decide_eq_true_eq]
    exact le_trans (orZero_nonneg _ h) (le_max_left _ _)
  · exact h

/-- No delivery makes `inp` negative. -/
theorem deliver_inp_nonneg (m : Metrics) (d : EntryList)
    (h : absentOrNonNegative m.inp = true) :
    absentOrNonNegative (deliver m d).metrics.inp = true := by
  cases d with
  | largestContentfulPaint es =>
    obtain ⟨A, hA⟩ := lcpObserver_effect es
    simpa [deliver, hA] using h
  | firstInput es =>
    simp only [deliver, fidObserver]
    induction es generalizing m with
    | nil => exact h
    | cons e rest ih => exact ih (fidStep m e) (fidStep_inp_nonneg m e h)
  | layoutShift es =>
    obtain ⟨C, hC⟩ := clsObserver_effect es
    simpa [deliver, hC] using h
  | paint es =>
    obtain ⟨D, hD⟩ := paintObserver_effect es
    simpa [deliver, hD] using h

theorem deliverAll_inp_nonneg (ds : List EntryList) (m : Metrics)
    (h : absentOrNonNegative m.inp = true) :
    absentOrNonNegative (deliverAll m ds).inp = true := by
  induction ds generalizing m with
  | nil => exact h
  | cons d ds ih =>
    rw [deliverAll_cons]
    exact ih _ (deliver_inp_nonneg m d h)

/-- In every state a collector can reach, `inp` is absent or non-negative. -/
theorem reached_inp_nonneg (w : Window) (ds : List EntryList) :
    absentOrNonNegative (reached w ds).inp = true := by
  obtain ⟨t, ht⟩ := newCollector_metrics w
  exact deliverAll_inp_nonneg ds _ (by rw [ht]; rfl)

/-! ### Sign of the timestamp fields -/

/-- On a host whose navigation entry is ordered, `calculateTTFB` yields a non-negative
`ttfb` or leaves it as it was. -/
theorem calculateTTFB_ttfb_nonneg (w : Window) (m : Metrics)
    (hw : orderedNavigation w = true) (h : absentOrNonNegative m.ttfb = true) :
    absentOrNonNegative (calculateTTFB w m).ttfb = true := by
  unfold calculateTTFB
  unfold orderedNavigation at hw
  cases hp : w.performance with
  | none => simpa [hp] using h
  | some p =>
    cases ht : p.timeline with
    | none => simpa [hp, ht] using h
    | some t =>
      cases hn : t.navigation.head? with
      | none => simpa [hp, ht, hn] using h
      | some nav =>
        simp only [hp, ht, hn, decide_eq_true_eq] at hw
        simp only [ht, hn, absentOrNonNegative, decide_eq_true_eq]
        linarith

/-- A delivery with ordered timestamps keeps lcp, fid, fcp and ttfb absent or
non-negative. -/
theorem deliver_times_nonneg (m : Metrics) (d : EntryList) (hd : orderedTimes d = true)
    (h : absentOrNonNegative m.lcp = true ∧ absentOrNonNegative m.fid = true ∧
      absentOrNonNegative m.fcp = true ∧ absentOrNonNegative m.ttfb = true) :
    absentOrNonNegative (deliver m d).metrics.lcp = true ∧
      absentOrNonNegative (deliver m d).metrics.fid = true ∧
      absentOrNonNegative (deliver m d).metrics.fcp = true ∧
      absentOrNonNegative (deliver m d).metrics.ttfb = true := by
  obtain ⟨hl, hf, hc, ht⟩ := h
  cases d with
  | largestContentfulPaint es =>
    simp only [deliver, lcpObserver_metrics]
    refine ⟨?_, hf, hc, ht⟩
    cases hlast : es.getLast? with
    | none => exact hl
    | some r =>
      have hmem : r ∈ es := List.mem_of_mem_getLast? (by rw [hlast]; exact rfl)
      exact (List.all_eq_true.mp hd) r hmem
  | firstInput es =>
    obtain ⟨f, i, hfr⟩ := fidObserver_frame es m
    have h1 : (es.foldl fidStep m).lcp = m.lcp := by rw [hfr]
    have h2 : (es.foldl fidStep m).fcp = m.fcp := by rw [hfr]
    have h3 : (es.foldl fidStep m).ttfb = m.ttfb := by rw [hfr]
    simp only [deliver, fidObserver, h1, h2, h3]
    refine ⟨hl, ?_, hc, ht⟩
    rw [fidObserver_fid]
    cases hlast : (es.filter (fun e => e.name = "first-input")).getLast? with
    | none => exact hf
    | some e =>
      have hmem : e ∈ es :=
        List.mem_of_mem_filter (List.mem_of_mem_getLast? (by rw [hlast]; exact rfl))
      have hord := (List.all_eq_true.mp hd) e hmem
      simp only [decide_eq_true_eq] at hord
      simp only [absentOrNonNegative, delay, decide_eq_true_eq]
      linarith
  | layoutShift es =>
    obtain ⟨c, l, hfr⟩ := clsObserver_frame es m
    simp only [deliver, hfr]
    exact ⟨hl, hf, hc, ht⟩
  | paint es =>
    obtain ⟨f, hfr⟩ := paintObserver_frame es m
    have h1 : (es.foldl paintStep m).lcp = m.lcp := by rw [hfr]
    have h2 : (es.foldl paintStep m).fid = m.fid := by rw [hfr]
    have h3 : (es.foldl paintStep m).ttfb = m.ttfb := by rw [hfr]
    simp only [deliver, paintObserver, h1, h2, h3]
    refine ⟨hl, hf, ?_, ht⟩
    rw [paintObserver_fcp]
    cases hlast : (es.filter (fun e => e.name = "first-contentful-paint")).getLast? with
    | none => exact hc
    | some e =>
      have hmem : e ∈ es :=
        List.mem_of_mem_filter (List.mem_of_mem_getLast? (by rw [hlast]; exact rfl))
      exact (List.all_eq_true.mp hd) e hmem

theorem deliverAll_times_nonneg (ds : List EntryList) (m : Metrics)
    (hds : ∀ d ∈ ds, orderedTimes d = true)
    (h : absentOrNonNegative m.lcp = true ∧ absentOrNonNegative m.fid = true ∧
      absentOrNonNegative m.fcp = true ∧ absentOrNonNegative m.ttfb = true) :
    absentOrNonNegative (deliverAll m ds).lcp = true ∧
      absentOrNonNegative (deliverAll m ds).fid = true ∧
      absentOrNonNegative (deliverAll m ds).fcp = true ∧
      absentOrNonNegative (deliverAll m ds).ttfb = true := by
  induction ds generalizing m with
  | nil => exact h
  | cons d ds ih =>
    rw [deliverAll_cons]
    exact ih _ (fun x hx => hds x (List.mem_cons_of_mem _ hx))
      (deliver_times_nonneg m d (hds d (List.mem_cons_self _ _)) h)

/-! ### Commutation and monotone labels -/

/-- Deliveries of two different streams can be swapped without changing the metrics they
leave. -/
theorem deliver_comm (m : Metrics) (d1 d2 : EntryList) (h : d1.stream ≠ d2.stream) :
    (deliver (deliver m d1).metrics d2).metrics = (deliver (deliver m d2).metrics d1).metrics := by
  cases d1 with
  | largestContentfulPaint es1 =>
    obtain ⟨A, hA⟩ := lcpObserver_effect es1
    cases d2 with
    | largestContentfulPaint es2 => exact absurd rfl h
    | firstInput es2 =>
      obtain ⟨B1, B2, hB⟩ := fidObserver_effect es2
      simp only [deliver, hA, hB]
    | layoutShift es2 =>
      obtain ⟨C, hC⟩ := clsObserver_effect es2
      simp only [deliver, hA, hC]
    | paint es2 =>
      obtain ⟨D, hD⟩ := paintObserver_effect es2
      simp only [deliver, hA, hD]
  | firstInput es1 =>
    obtain ⟨B1, B2, hB⟩ := fidObserver_effect es1
    cases d2 with
    | largestContentfulPaint es2 =>
      obtain ⟨A, hA⟩ := lcpObserver_effect es2
      simp only [deliver, hA, hB]
    | firstInput es2 => exact absurd rfl h
    | layoutShift es2 =>
      obtain ⟨C, hC⟩ := clsObserver_effect es2
      simp only [deliver, hB, hC]
    | paint es2 =>
      obtain ⟨D, hD⟩ := paintObserver_effect es2
      simp only [deliver, hB, hD]
  | layoutShift es1 =>
    obtain ⟨C, hC⟩ := clsObserver_effect es1
    cases d2 with
    | largestContentfulPaint es2 =>
      obtain ⟨A, hA⟩ := lcpObserver_effect es2
      simp only [deliver, hA, hC]
    | firstInput es2 =>
      obtain ⟨B1, B2, hB⟩ := fidObserver_effect es2
      simp only [deliver, hB, hC]
    | layoutShift es2 => exact absurd rfl h
    | paint es2 =>
      obtain ⟨D, hD⟩ := paintObserver_effect es2
      simp only [deliver, hC, hD]
  | paint es1 =>
    obtain ⟨D, hD⟩ := paintObserver_effect es1
    cases d2 with
    | largestContentfulPaint es2 =>
      obtain ⟨A, hA⟩ := lcpObserver_effect es2
      simp only [deliver, hA, hD]
    | firstInput es2 =>
      obtain ⟨B1, B2, hB⟩ := fidObserver_effect es2
      simp only [deliver, hB, hD]
    | layoutShift es2 =>
      obtain ⟨C, hC⟩ := clsObserver_effect es2
      simp only [deliver, hC, hD]
    | paint es2 => exact absurd rfl h

/-- A three-way classification against two bounds never gives a larger value a better
label. -/
theorem classify_mono (a b v1 v2 : ℚ) (h : v1 ≤ v2) :
    (if v1 ≤ a then Label.good else if v1 ≤ b then Label.needsImprovement
      else Label.poor).rank ≤
      (if v2 ≤ a then Label.good else if v2 ≤ b then Label.needsImprovement
        else Label.poor).rank := by
  by_cases h1 : v1 ≤ a
  · simp [h1, Label.rank]
  · have h2 : ¬ v2 ≤ a := fun hc => h1 (le_trans h hc)
    by_cases h3 : v1 ≤ b
    · by_cases h4 : v2 ≤ b <;> simp [h1, h2, h3, h4, Label.rank]
    · have h4 : ¬ v2 ≤ b := fun hc => h3 (le_trans h hc)
      simp [h1, h2, h3, h4, Label.rank]

/-! ## Layout-shift accumulation -/

/-- C1, refuted as stated: two layout shifts whose values are the doubles written 0.1 and 0.2
leave `cls` at the double written 0.30000000000000004, which is not the sum of the two
values. -/
theorem cls_exact_sum_counterexample :
    (deliverAll initialMetrics
        [EntryList.layoutShift
          [{ value := some (3602879701896397/36028797018963968), startTime := 0,
             hadRecentInput := false, sources := none },
           { value := some (3602879701896397/18014398509481984), startTime := 1,
             hadRecentInput := false, sources := none }]]).cls =
        JSNum.num (1351079888211149/4503599627370496) ∧
      (1351079888211149/4503599627370496 : ℚ) ≠
        3602879701896397/36028797018963968 + 3602879701896397/18014398509481984 := by
  have e1 : roundDouble (0 + 3602879701896397/36028797018963968) =
      JSNum.num (3602879701896397/36028797018963968) :=
    (roundDouble_eq _ (-56) 7205759403792794 (by norm_num) (by norm_num)
      (Or.inr (by norm_num)) (by norm_num) (by norm_num) (by norm_num)).trans (by norm_num)
  have e2 : roundDouble (3602879701896397/36028797018963968 +
      3602879701896397/18014398509481984) = JSNum.num (1351079888211149/4503599627370496) :=
    (roundDouble_eq _ (-54) 5404319552844596 (by norm_num) (by norm_num)
      (Or.inr (by norm_num)) (by norm_num) (by norm_num) (by norm_num)).trans (by norm_num)
  refine ⟨?_, by norm_num⟩
  have h : (deliverAll initialMetrics
      [EntryList.layoutShift
        [{ value := some (3602879701896397/36028797018963968), startTime := 0,
           hadRecentInput := false, sources := none },
         { value := some (3602879701896397/18014398509481984), startTime := 1,
           hadRecentInput := false, sources := none }]]).cls =
      (roundDouble (0 + 3602879701896397/36028797018963968)).add
        (JSNum.num (3602879701896397/18014398509481984)) := rfl
  rw [h, e1]
  exact e2

/-- C1, amended: starting from the initial metrics, after any sequence of layout-shift batches
whose qualifying records carry a value, `cls` is the left-to-right double-precision sum of the
values of the records with `hadRecentInput = false`, each addition rounded to the nearest
double; it is their exact sum when no partial sum needs rounding; `clsEntries` has one element
per such record; and removing the records with `hadRecentInput = true` changes nothing. -/
theorem cls_is_double_sum_of_qualifying_shifts (batches : List (List LayoutShift))
    (hv : ∀ e ∈ batches.flatten, e.hadRecentInput = false → ∃ v, e.value = some v) :
    (deliverAll initialMetrics (batches.map EntryList.layoutShift)).cls =
        doubleSum (JSNum.num 0)
          ((qualifyingShifts batches.flatten).map (fun e => JSNum.num (shiftValue e))) ∧
      ((∀ k : ℕ,
          roundDouble ((((qualifyingShifts batches.flatten).map shiftValue).take k).sum) =
            JSNum.num ((((qualifyingShifts batches.flatten).map shiftValue).take k).sum)) →
        (deliverAll initialMetrics (batches.map EntryList.layoutShift)).cls =
          JSNum.num (((qualifyingShifts batches.flatten).map shiftValue).sum)) ∧
      (deliverAll initialMetrics (batches.map EntryList.layoutShift)).clsEntries.length =
        (qualifyingShifts batches.flatten).length ∧
      deliverAll initialMetrics (batches.map EntryList.layoutShift) =
        deliverAll initialMetrics ((batches.map qualifyingShifts).map EntryList.layoutShift) := by
  have hq : ∀ e ∈ (batches.map qualifyingShifts).flatten,
      e.hadRecentInput = false → ∃ v, e.value = some v := by
    intro e he
    rw [flatten_map_qualifying] at he
    exact hv e (List.mem_of_mem_filter he)
  have hmap : (qualifyingShifts batches.flatten).map (fun e => JSNum.num (shiftValue e)) =
      ((qualifyingShifts batches.flatten).map shiftValue).map JSNum.num := by
    rw [List.map_map]
    rfl
  rw [deliverAll_layoutShift_wellFormed batches initialMetrics hv,
    deliverAll_layoutShift_wellFormed (batches.map qualifyingShifts) initialMetrics hq,
    flatten_map_qualifying, qualifyingShifts_idem]
  refine ⟨rfl, ?_, by simp [initialMetrics], rfl⟩
  intro hexact
  show doubleSum (JSNum.num 0) _ = _
  rw [hmap, doubleSum_exact _ 0 (fun k => by simpa using hexact k), zero_add]

/-- Witness for the amended C1: two batches holding shifts of 1/4 and 1/2 and one input-caused
shift; the partial sums 0, 1/4 and 3/4 are doubles, and `cls` is 3/4. -/
theorem cls_is_double_sum_of_qualifying_shifts_witness :
    (deliverAll initialMetrics
        ([[⟨some (1/4), 0, false, none⟩, ⟨some 7, 1, true, none⟩],
          [⟨some (1/2), 2, false, none⟩]].map EntryList.layoutShift)).cls =
      JSNum.num (3/4) := by
  have e1 : roundDouble (1/4) = JSNum.num (1/4) :=
    (roundDouble_eq _ (-54) 4503599627370496 (by norm_num) (by norm_num)
      (Or.inr (by norm_num)) (by norm_num) (by norm_num) (by norm_num)).trans (by norm_num)
  have e2 : roundDouble (3/4) = JSNum.num (3/4) :=
    (roundDouble_eq _ (-53) 6755399441055744 (by norm_num) (by norm_num)
      (Or.inr (by norm_num)) (by norm_num) (by norm_num) (by norm_num)).trans (by norm_num)
  have hq : qualifyingShifts
      ([[⟨some (1/4), 0, false, none⟩, ⟨some 7, 1, true, none⟩],
        [⟨some (1/2), 2, false, none⟩]] : List (List LayoutShift)).flatten =
      [⟨some (1/4), 0, false, none⟩, ⟨some (1/2), 2, false, none⟩] := rfl
  have h := (cls_is_double_sum_of_qualifying_shifts
    [[⟨some (1/4), 0, false, none⟩, ⟨some 7, 1, true, none⟩],
      [⟨some (1/2), 2, false, none⟩]]
    (by
      intro e he _
      simp only [List.flatten, List.mem_append, List.mem_cons, List.mem_singleton,
        List.not_mem_nil, or_false] at he
      rcases he with (h | h) | h <;> subst h <;> exact ⟨_, rfl⟩)).2.1
  rw [hq] at h
  have hs : (List.map shiftValue
      [⟨some (1/4), 0, false, none⟩, ⟨some (1/2), 2, false, none⟩]) = [1/4, 1/2] := rfl
  rw [hs] at h
  rw [h]
  · norm_num
  · intro k
    rcases k with _ | _ | k
    · simpa using roundDouble_zero
    · simpa using e1
    · have : (List.take (k + 1 + 1) [(1/4 : ℚ), 1/2]).sum = 3/4 := by
        simp [List.take]
        norm_num
      rw [this]
      exact e2

/-! ## Scoring -/

/-- C2: `calculatePerformanceScores` labels each present metric by inclusive upper bounds:
for a finite value `v`, lcp is good iff `v ≤ 2500`, needs-improvement iff `2500 < v ≤ 4000`,
poor iff `v > 4000`; fid likewise with 100 and 300; cls with 0.1 and 0.25; ttfb with 800 and
1800. -/
theorem scores_follow_inclusive_thresholds (m : Metrics) (v : ℚ) :
    (((calculatePerformanceScores { m with lcp := some v }).get "lcp" = some Label.good
          ↔ v ≤ 2500) ∧
        ((calculatePerformanceScores { m with lcp := some v }).get "lcp"
          = some Label.needsImprovement ↔ 2500 < v ∧ v ≤ 4000) ∧
        ((calculatePerformanceScores { m with lcp := some v }).get "lcp" = some Label.poor
          ↔ 4000 < v)) ∧
      (((calculatePerformanceScores { m with fid := some v }).get "fid" = some Label.good
          ↔ v ≤ 100) ∧
        ((calculatePerformanceScores { m with fid := some v }).get "fid"
          = some Label.needsImprovement ↔ 100 < v ∧ v ≤ 300) ∧
        ((calculatePerformanceScores { m with fid := some v }).get "fid" = some Label.poor
          ↔ 300 < v)) ∧
      (((calculatePerformanceScores { m with cls := JSNum.num v }).get "cls" = some Label.good
          ↔ v ≤ 0.1) ∧
        ((calculatePerformanceScores { m with cls := JSNum.num v }).get "cls"
          = some Label.needsImprovement ↔ 0.1 < v ∧ v ≤ 0.25) ∧
        ((calculatePerformanceScores { m with cls := JSNum.num v }).get "cls" = some Label.poor
          ↔ 0.25 < v)) ∧
      (((calculatePerformanceScores { m with ttfb := some v }).get "ttfb" = some Label.good
          ↔ v ≤ 800) ∧
        ((calculatePerformanceScores { m with ttfb := some v }).get "ttfb"
          = some Label.needsImprovement ↔ 800 < v ∧ v ≤ 1800) ∧
        ((calculatePerformanceScores { m with ttfb := some v }).get "ttfb" = some Label.poor
          ↔ 1800 < v)) := by
  refine ⟨?_, ?_, ?_, ?_⟩
  · simp only [scores_get_lcp, Option.map, Option.some.injEq]
    exact classify_iff 2500 4000 v (by norm_num)
  · simp only [scores_get_fid, Option.map, Option.some.injEq]
    exact classify_iff 100 300 v (by norm_num)
  · simp only [scores_get_cls, JSNum.le, decide_eq_true_eq, Option.some.injEq]
    exact classify_iff 0.1 0.25 v (by norm_num)
  · simp only [scores_get_ttfb, Option.map, Option.some.injEq]
    exact classify_iff 800 1800 v (by norm_num)

/-- The boundary cases listed for C2: lcp 2500, 2501, 4001; cls 0.1, 0.2501; ttfb 800, 1801;
fid 100, 301. -/
theorem scores_follow_inclusive_thresholds_witness :
    (calculatePerformanceScores { initialMetrics with lcp := some 2500 }).get "lcp"
        = some Label.good ∧
      (calculatePerformanceScores { initialMetrics with lcp := some 2501 }).get "lcp"
        = some Label.needsImprovement ∧
      (calculatePerformanceScores { initialMetrics with lcp := some 4001 }).get "lcp"
        = some Label.poor ∧
      (calculatePerformanceScores { initialMetrics with cls := JSNum.num 0.1 }).get "cls"
        = some Label.good ∧
      (calculatePerformanceScores { initialMetrics with cls := JSNum.num 0.2501 }).get "cls"
        = some Label.poor ∧
      (calculatePerformanceScores { initialMetrics with ttfb := some 800 }).get "ttfb"
        = some Label.good ∧
      (calculatePerformanceScores { initialMetrics with ttfb := some 1801 }).get "ttfb"
        = some Label.poor ∧
      (calculatePerformanceScores { initialMetrics with fid := some 100 }).get "fid"
        = some Label.good ∧
      (calculatePerformanceScores { initialMetrics with fid := some 301 }).get "fid"
        = some Label.poor :=
  ⟨(scores_follow_inclusive_thresholds initialMetrics 2500).1.1.mpr (by norm_num),
    (scores_follow_inclusive_thresholds initialMetrics 2501).1.2.1.mpr (by norm_num),
    (scores_follow_inclusive_thresholds initialMetrics 4001).1.2.2.mpr (by norm_num),
    (scores_follow_inclusive_thresholds initialMetrics 0.1).2.2.1.1.mpr (by norm_num),
    (scores_follow_inclusive_thresholds initialMetrics 0.2501).2.2.1.2.2.mpr (by norm_num),
    (scores_follow_inclusive_thresholds initialMetrics 800).2.2.2.1.mpr (by norm_num),
    (scores_follow_inclusive_thresholds initialMetrics 1801).2.2.2.2.2.mpr (by norm_num),
    (scores_follow_inclusive_thresholds initialMetrics 100).2.1.1.mpr (by norm_num),
    (scores_follow_inclusive_thresholds initialMetrics 301).2.1.2.2.mpr (by norm_num)⟩

/-- C3: the scores object has an `lcp`, `fid`, `ttfb` property exactly when the metric is
present, always has a `cls` property, has no property under any other name (so none for
`inp` or `fcp`), and two metrics objects that agree on lcp, fid, cls and ttfb get equal
scores. -/
theorem scores_fields_follow_presence (m : Metrics) :
    (((calculatePerformanceScores m).get "lcp").isSome ↔ m.lcp.isSome) ∧
      (((calculatePerformanceScores m).get "fid").isSome ↔ m.fid.isSome) ∧
      (((calculatePerformanceScores m).get "ttfb").isSome ↔ m.ttfb.isSome) ∧
      ((calculatePerformanceScores m).get "cls").isSome ∧
      (calculatePerformanceScores m).get "inp" = none ∧
      (calculatePerformanceScores m).get "fcp" = none ∧
      (∀ key : String, key ≠ "lcp" → key ≠ "fid" → key ≠ "cls" → key ≠ "ttfb" →
        (calculatePerformanceScores m).get key = none) ∧
      (∀ m2 : Metrics, m.lcp = m2.lcp → m.fid = m2.fid → m.cls = m2.cls → m.ttfb = m2.ttfb →
        calculatePerformanceScores m = calculatePerformanceScores m2) := by
  refine ⟨?_, ?_, ?_, ?_, ?_, ?_, ?_, ?_⟩
  · rw [scores_get_lcp]; cases m.lcp <;> simp
  · rw [scores_get_fid]; cases m.fid <;> simp
  · rw [scores_get_ttfb]; cases m.ttfb <;> simp
  · rw [scores_get_cls]; simp
  · exact scores_get_other m "inp" (by decide) (by decide) (by decide) (by decide)
  · exact scores_get_other m "fcp" (by decide) (by decide) (by decide) (by decide)
  · exact fun key h1 h2 h3 h4 => scores_get_other m key h1 h2 h3 h4
  · intro m2 h1 h2 h3 h4
    simp only [calculatePerformanceScores, h1, h2, h3, h4]

/-- Witness for C3: a state with lcp and an interaction delay and one with lcp and a paint
time get the same scores, which hold `lcp` and `cls` only. -/
theorem scores_fields_follow_presence_witness :
    calculatePerformanceScores { initialMetrics with lcp := some 3000, inp := some 40 } =
        calculatePerformanceScores { initialMetrics with lcp := some 3000, fcp := some 900 } ∧
      (calculatePerformanceScores { initialMetrics with lcp := some 3000, inp := some 40 }).get
        "inp" = none :=
  ⟨(scores_fields_follow_presence
      { initialMetrics with lcp := some 3000, inp := some 40 }).2.2.2.2.2.2.2
      { initialMetrics with lcp := some 3000, fcp := some 900 } rfl rfl rfl rfl,
    (scores_fields_follow_presence
      { initialMetrics with lcp := some 3000, inp := some 40 }).2.2.2.2.1⟩

/-! ## First input delay and first contentful paint -/

/-- C4, refuted as stated: with `fid` already 5, a record named `first-input` whose
processing delay is 12 - 2 replaces it by 10. -/
theorem fid_write_once_counterexample :
    ({ initialMetrics with fid := some 5 } : Metrics).fid = some 5 ∧
      (fidObserver { initialMetrics with fid := some 5 }
        [{ name := "first-input", startTime := 2, processingStart := 12,
           interactionId := none }]).metrics.fid = some 10 ∧
      (fidObserver { initialMetrics with fid := some 5 }
        [{ name := "first-input", startTime := 2, processingStart := 12,
           interactionId := none }]).metrics.fid ≠
        ({ initialMetrics with fid := some 5 } : Metrics).fid := by
  refine ⟨rfl, ?_, ?_⟩ <;>
    norm_num [fidObserver, fidStep, initialMetrics, EventTiming.hasInteraction]

/-- C4, amended: `fid` is overwritten by every record named `first-input`. Such a record
sets `fid` to its `processingStart - startTime` whatever `fid` held, and after a batch `fid`
is the delay of the last record of the batch named `first-input`, or unchanged if the batch
has none. -/
theorem fid_last_first_input_wins (m : Metrics) (es : List EventTiming) :
    (∀ e : EventTiming, e.name = "first-input" →
        (fidObserver m [e]).metrics.fid = some (e.processingStart - e.startTime)) ∧
      (fidObserver m es).metrics.fid =
        match (es.filter (fun e => e.name = "first-input")).getLast? with
        | some e => some (e.processingStart - e.startTime)
        | none => m.fid := by
  constructor
  · intro e he
    simp [fidObserver, fidStep_eq, he, delay]
  · simpa [fidObserver, delay] using fidObserver_fid es m

/-- Witness for the amended C4: a set `fid` of 5 becomes 12 - 2. -/
theorem fid_last_first_input_wins_witness :
    (fidObserver { initialMetrics with fid := some 5 }
      [{ name := "first-input", startTime := 2, processingStart := 12,
         interactionId := some 3 }]).metrics.fid = some (12 - 2) :=
  (fid_last_first_input_wins { initialMetrics with fid := some 5 } []).1
    { name := "first-input", startTime := 2, processingStart := 12, interactionId := some 3 }
    rfl

/-- C5, refuted as stated: with `fcp` already 800, a record named `first-contentful-paint`
starting at 950 replaces it. -/
theorem fcp_write_once_counterexample :
    ({ initialMetrics with fcp := some 800 } : Metrics).fcp = some 800 ∧
      (paintObserver { initialMetrics with fcp := some 800 }
        [{ name := "first-contentful-paint", startTime := 950 }]).metrics.fcp = some 950 ∧
      (paintObserver { initialMetrics with fcp := some 800 }
        [{ name := "first-contentful-paint", startTime := 950 }]).metrics.fcp ≠
        ({ initialMetrics with fcp := some 800 } : Metrics).fcp := by
  refine ⟨rfl, ?_, ?_⟩ <;> norm_num [paintObserver, paintStep, initialMetrics]

/-- C5, amended: `fcp` is overwritten by every record named `first-contentful-paint`. Such
a record sets `fcp` to its `startTime` whatever `fcp` held, and after a batch `fcp` is the
start time of the last record of the batch named `first-contentful-paint`, or unchanged if
the batch has none. -/
theorem fcp_last_contentful_paint_wins (m : Metrics) (es : List PaintTiming) :
    (∀ e : PaintTiming, e.name = "first-contentful-paint" →
        (paintObserver m [e]).metrics.fcp = some e.startTime) ∧
      (paintObserver m es).metrics.fcp =
        match (es.filter (fun e => e.name = "first-contentful-paint")).getLast? with
        | some e => some e.startTime
        | none => m.fcp := by
  constructor
  · intro e he
    simp [paintObserver, paintStep_fcp, he]
  · simpa [paintObserver] using paintObserver_fcp es m

/-- Witness for the amended C5: a set `fcp` of 800 becomes 650. -/
theorem fcp_last_contentful_paint_wins_witness :
    (paintObserver { initialMetrics with fcp := some 800 }
      [{ name := "first-contentful-paint", startTime := 650 }]).metrics.fcp = some 650 :=
  (fcp_last_contentful_paint_wins { initialMetrics with fcp := some 800 } []).1
    { name := "first-contentful-paint", startTime := 650 } rfl

/-! ## Largest contentful paint -/

/-- C6: after any sequence of deliveries, of any streams, in which at least one
largest-contentful-paint record was delivered, `lcp` is the `startTime` of the last such
record, whatever `lcp` held at the start. -/
theorem lcp_is_last_delivered (m : Metrics) (ds : List EntryList)
    (r : LargestContentfulPaint) (h : (lcpRecords ds).getLast? = some r) :
    (deliverAll m ds).lcp = some r.startTime := by
  rw [deliverAll_lcp, h]

/-- Witness for C6: records at 900, 1200 and then 700, interleaved with a layout shift and a
paint record, leave `lcp` at 700, the last and not the largest. -/
theorem lcp_is_last_delivered_witness :
    (deliverAll { initialMetrics with lcp := some 5000 }
      [EntryList.largestContentfulPaint [⟨900⟩, ⟨1200⟩],
        EntryList.layoutShift [⟨some (1/10), 950, false, none⟩],
        EntryList.largestContentfulPaint [⟨700⟩],
        EntryList.paint [⟨"first-contentful-paint", 400⟩]]).lcp = some 700 :=
  lcp_is_last_delivered { initialMetrics with lcp := some 5000 }
    [EntryList.largestContentfulPaint [⟨900⟩, ⟨1200⟩],
      EntryList.layoutShift [⟨some (1/10), 950, false, none⟩],
      EntryList.largestContentfulPaint [⟨700⟩],
      EntryList.paint [⟨"first-contentful-paint", 400⟩]]
    ⟨700⟩ rfl

/-! ## Interaction to next paint -/

/-- C7: from the initial metrics, after a non-empty sequence of first-input-stream records
that all carry an interaction identifier (in any split into batches), `inp` is
`max(0, max_i(processingStart_i - startTime_i))`; `maxDelay` is that inner maximum: it bounds
every record's delay and is the delay of one of them. -/
theorem inp_is_max_interaction_delay (batches : List (List EventTiming))
    (hne : batches.flatten ≠ [])
    (hall : ∀ e ∈ batches.flatten, e.hasInteraction = true) :
    (deliverAll initialMetrics (batches.map EntryList.firstInput)).inp =
        some (max 0 (maxDelay batches.flatten)) ∧
      (∀ e ∈ batches.flatten,
        e.processingStart - e.startTime ≤ maxDelay batches.flatten) ∧
      (∃ e ∈ batches.flatten,
        maxDelay batches.flatten = e.processingStart - e.startTime) := by
  refine ⟨?_, fun e he => delay_le_maxDelay _ e he, maxDelay_attained _ hne⟩
  rw [deliverAll_firstInput]
  cases hfl : batches.flatten with
  | nil => exact absurd hfl hne
  | cons e rest =>
    rw [foldl_fidStep_inp rest e initialMetrics (by rw [← hfl]; exact hall)]
    simp only [maxDelay, List.map_cons, List.foldl_cons, initialMetrics, orZero]
    rw [foldl_max_assoc]

/-- Witness for C7: delays 5 and 12 in one batch and 8 in the next leave `inp` at 12. -/
theorem inp_is_max_interaction_delay_witness :
    (deliverAll initialMetrics
      ([[⟨"pointerdown", 100, 105, some 1⟩, ⟨"keydown", 200, 212, some 2⟩],
        [⟨"first-input", 300, 308, some 3⟩]].map EntryList.firstInput)).inp = some 12 := by
  have h := (inp_is_max_interaction_delay
    [[⟨"pointerdown", 100, 105, some 1⟩, ⟨"keydown", 200, 212, some 2⟩],
      [⟨"first-input", 300, 308, some 3⟩]]
    (by simp)
    (by
      intro e he
      simp only [List.flatten, List.mem_append, List.mem_cons, List.mem_singleton,
        List.not_mem_nil, or_false] at he
      rcases he with (h | h) | h <;> subst h <;> rfl)).1
  rw [h]
  norm_num [maxDelay, delay, List.flatten]

/-! ## Malformed layout-shift records -/

/-- C8, refuted as stated: on a batch whose first record has no `value` and is not
input-caused, the callback throws a `TypeError`, `cls` has become `NaN` instead of staying 0,
and the second record of the batch has not been logged. -/
theorem missing_shift_value_counterexample :
    (clsObserver initialMetrics
        [{ value := none, startTime := 0, hadRecentInput := false, sources := none },
          { value := some (1/10), startTime := 1, hadRecentInput := false,
            sources := none }]).completion = Completion.throw JSError.typeError ∧
      (clsObserver initialMetrics
        [{ value := none, startTime := 0, hadRecentInput := false, sources := none },
          { value := some (1/10), startTime := 1, hadRecentInput := false,
            sources := none }]).metrics.cls = JSNum.nan ∧
      initialMetrics.cls = JSNum.num 0 ∧
      (clsObserver initialMetrics
        [{ value := none, startTime := 0, hadRecentInput := false, sources := none },
          { value := some (1/10), startTime := 1, hadRecentInput := false,
            sources := none }]).metrics.clsEntries.length = 1 := by
  refine ⟨?_, ?_, rfl, ?_⟩ <;> simp [clsObserver, initialMetrics, toNumber, JSNum.add]

/-- C8, amended: a layout-shift record with `hadRecentInput = false` whose `value` is present
is processed without a fault, adding the value to `cls`, and the callback goes on with the
rest of the batch; one whose `value` is missing is logged, turns `cls` into `NaN`, and makes
the callback throw a `TypeError` without processing the rest of the batch. -/
theorem shift_value_present_or_throw (m : Metrics) (e : LayoutShift) (rest : List LayoutShift)
    (hin : e.hadRecentInput = false) :
    (∀ v : ℚ, e.value = some v →
        clsObserver m (e :: rest) =
          clsObserver
            { m with
              clsEntries := m.clsEntries ++ [clsEntryOf e]
              cls := m.cls.add (JSNum.num v) }
            rest) ∧
      (e.value = none →
        clsObserver m (e :: rest) =
          ⟨{ m with clsEntries := m.clsEntries ++ [clsEntryOf e], cls := JSNum.nan },
            Completion.throw JSError.typeError⟩) := by
  constructor
  · intro v hv
    rw [clsObserver]
    simp [hin, hv, toNumber]
  · intro hv
    rw [clsObserver]
    simp [hin, hv, toNumber, JSNum.add_nan]

/-- Witness for the amended C8: a record without `value` ahead of a well-formed one. -/
theorem shift_value_present_or_throw_witness :
    clsObserver initialMetrics
        [{ value := none, startTime := 0, hadRecentInput := false, sources := none },
          { value := some (1/10), startTime := 1, hadRecentInput := false, sources := none }] =
      ⟨{ initialMetrics with
          clsEntries := initialMetrics.clsEntries ++
            [clsEntryOf { value := none, startTime := 0, hadRecentInput := false,
                          sources := none }]
          cls := JSNum.nan },
        Completion.throw JSError.typeError⟩ :=
  (shift_value_present_or_throw initialMetrics
    { value := none, startTime := 0, hadRecentInput := false, sources := none }
    [{ value := some (1/10), startTime := 1, hadRecentInput := false, sources := none }]
    rfl).2 rfl

/-! ## The report -/

/-- C9, refuted as stated: for three resources that take the doubles written 0.1, 0.2 and
0.3, `averageResourceTime` is the double written 0.20000000000000004, which is not the
arithmetic mean of the three times. -/
theorem averageResourceTime_mean_counterexample :
    ∃ r : Report,
      getDetailedMetrics
          { hasPerformanceObserver := true, observeThrows := fun _ => false,
            performance := some
              { timeline := some
                  { navigation := [],
                    resource :=
                      [⟨"img", 0, 3602879701896397/36028797018963968⟩,
                        ⟨"script", 0, 3602879701896397/18014398509481984⟩,
                        ⟨"link", 0, 5404319552844595/18014398509481984⟩] },
                memory := none } }
          initialMetrics = Except.ok r ∧
        r.resourceSummary.averageResourceTime =
          JSNum.num (7205759403792795/36028797018963968) ∧
        (7205759403792795/36028797018963968 : ℚ) ≠
          ((3602879701896397/36028797018963968 - 0) +
            (3602879701896397/18014398509481984 - 0) +
            (5404319552844595/18014398509481984 - 0)) / 3 := by
  have m1 : roundDouble (3602879701896397/36028797018963968 - 0) =
      JSNum.num (3602879701896397/36028797018963968) :=
    (roundDouble_eq _ (-56) 7205759403792794 (by norm_num) (by norm_num)
      (Or.inr (by norm_num)) (by norm_num) (by norm_num) (by norm_num)).trans (by norm_num)
  have m2 : roundDouble (3602879701896397/18014398509481984 - 0) =
      JSNum.num (3602879701896397/18014398509481984) :=
    (roundDouble_eq _ (-55) 7205759403792794 (by norm_num) (by norm_num)
      (Or.inr (by norm_num)) (by norm_num) (by norm_num) (by norm_num)).trans (by norm_num)
  have m3 : roundDouble (5404319552844595/18014398509481984 - 0) =
      JSNum.num (5404319552844595/18014398509481984) :=
    (roundDouble_eq _ (-54) 5404319552844595 (by norm_num) (by norm_num)
      (Or.inr (by norm_num)) (by norm_num) (by norm_num) (by norm_num)).trans (by norm_num)
  have a1 : (JSNum.num 0).add (JSNum.num (3602879701896397/36028797018963968)) =
      JSNum.num (3602879701896397/36028797018963968) :=
    (roundDouble_eq _ (-56) 7205759403792794 (by norm_num) (by norm_num)
      (Or.inr (by norm_num)) (by norm_num) (by norm_num) (by norm_num)).trans (by norm_num)
  have a2 : (JSNum.num (3602879701896397/36028797018963968)).add
      (JSNum.num (3602879701896397/18014398509481984)) =
      JSNum.num (1351079888211149/4503599627370496) :=
    (roundDouble_eq _ (-54) 5404319552844596 (by norm_num) (by norm_num)
      (Or.inr (by norm_num)) (by norm_num) (by norm_num) (by norm_num)).trans (by norm_num)
  have a3 : (JSNum.num (1351079888211149/4503599627370496)).add
      (JSNum.num (5404319552844595/18014398509481984)) =
      JSNum.num (1351079888211149/2251799813685248) :=
    (roundDouble_eq _ (-53) 5404319552844596 (by norm_num) (by norm_num)
      (Or.inr (by norm_num)) (by norm_num) (by norm_num) (by norm_num)).trans (by norm_num)
  have dv : roundDouble (1351079888211149/2251799813685248 / ((3 : ℕ) : ℚ)) =
      JSNum.num (7205759403792795/36028797018963968) :=
    (roundDouble_eq _ (-55) 7205759403792795 (by norm_num) (by norm_num)
      (Or.inr (by norm_num)) (by norm_num) (by norm_num) (by norm_num)).trans (by norm_num)
  refine ⟨_, getDetailedMetrics_ok _ _ _ _ rfl rfl, ?_, by norm_num⟩
  show (resourceSummaryOf
    [⟨"img", 0, 3602879701896397/36028797018963968⟩,
      ⟨"script", 0, 3602879701896397/18014398509481984⟩,
      ⟨"link", 0, 5404319552844595/18014398509481984⟩]).averageResourceTime = _
  have h : (resourceSummaryOf
      [⟨"img", 0, 3602879701896397/36028797018963968⟩,
        ⟨"script", 0, 3602879701896397/18014398509481984⟩,
        ⟨"link", 0, 5404319552844595/18014398509481984⟩]).averageResourceTime =
      ((((JSNum.num 0).add (roundDouble (3602879701896397/36028797018963968 - 0))).add
        (roundDouble (3602879701896397/18014398509481984 - 0))).add
        (roundDouble (5404319552844595/18014398509481984 - 0))).div
        (JSNum.num ((3 : ℕ) : ℚ)) := rfl
  rw [h, m1, m2, m3, a1, a2, a3]
  show jsDiv _ _ = _
  unfold jsDiv
  rw [if_neg (by norm_num)]
  exact dv

/-- C9, amended: on a host with a performance timeline, `getDetailedMetrics` returns a report
whose `totalResources` is the number of resource entries and whose `averageResourceTime` is 0
for no entries and otherwise the double-precision mean: the differences
`responseEnd - startTime` added from left to right, each operation rounded to the nearest
double, divided by the number of entries and rounded; it is the exact arithmetic mean when no
difference, partial sum or quotient needs rounding. -/
theorem averageResourceTime_is_double_mean (w : Window) (p : Performance) (t : Timeline)
    (m : Metrics) (hp : w.performance = some p) (ht : p.timeline = some t) :
    ∃ r : Report, getDetailedMetrics w m = Except.ok r ∧
      r.resourceSummary.totalResources = t.resource.length ∧
      (t.resource = [] → r.resourceSummary.averageResourceTime = JSNum.num 0) ∧
      (t.resource ≠ [] →
        r.resourceSummary.averageResourceTime =
          (doubleSum (JSNum.num 0)
            (t.resource.map (fun x => jsMinus x.responseEnd x.startTime))).div
            (JSNum.num t.resource.length)) ∧
      (t.resource ≠ [] →
        (∀ x ∈ t.resource, roundDouble (x.responseEnd - x.startTime) =
          JSNum.num (x.responseEnd - x.startTime)) →
        (∀ k : ℕ,
          roundDouble (((t.resource.map (fun x => x.responseEnd - x.startTime)).take k).sum) =
            JSNum.num (((t.resource.map (fun x => x.responseEnd - x.startTime)).take k).sum)) →
        roundDouble ((t.resource.map (fun x => x.responseEnd - x.startTime)).sum /
            t.resource.length) =
          JSNum.num ((t.resource.map (fun x => x.responseEnd - x.startTime)).sum /
            t.resource.length) →
        r.resourceSummary.averageResourceTime =
          JSNum.num ((t.resource.map (fun x => x.responseEnd - x.startTime)).sum /
            t.resource.length)) := by
  refine ⟨_, getDetailedMetrics_ok w p t m hp ht, rfl, ?_, ?_, ?_⟩
  · intro hnil
    simp [resourceSummaryOf, hnil]
  · intro hne
    exact resourceSummaryOf_average t.resource hne
  · intro hne hdiff hsum hquot
    exact resourceSummaryOf_average_exact t.resource hne hdiff hsum hquot

/-- Witness for the amended C9: resources taking 20 and 40, where nothing needs rounding,
average to 30. -/
theorem averageResourceTime_is_double_mean_witness :
    ∃ r : Report,
      getDetailedMetrics
          { hasPerformanceObserver := true, observeThrows := fun _ => false,
            performance := some
              { timeline := some { navigation := [], resource := [⟨"img", 10, 30⟩, ⟨"script", 0, 40⟩] },
                memory := none } }
          initialMetrics = Except.ok r ∧
        r.resourceSummary.totalResources = 2 ∧
        r.resourceSummary.averageResourceTime = JSNum.num 30 := by
  have e20 : ∀ x : ℚ, x = 20 → roundDouble x = JSNum.num x := by
    intro x hx
    subst hx
    exact (roundDouble_eq _ (-48) 5629499534213120 (by norm_num) (by norm_num)
      (Or.inr (by norm_num)) (by norm_num) (by norm_num) (by norm_num)).trans (by norm_num)
  have e40 : ∀ x : ℚ, x = 40 → roundDouble x = JSNum.num x := by
    intro x hx
    subst hx
    exact (roundDouble_eq _ (-47) 5629499534213120 (by norm_num) (by norm_num)
      (Or.inr (by norm_num)) (by norm_num) (by norm_num) (by norm_num)).trans (by norm_num)
  have e60 : ∀ x : ℚ, x = 60 → roundDouble x = JSNum.num x := by
    intro x hx
    subst hx
    exact (roundDouble_eq _ (-47) 8444249301319680 (by norm_num) (by norm_num)
      (Or.inr (by norm_num)) (by norm_num) (by norm_num) (by norm_num)).trans (by norm_num)
  have e30 : ∀ x : ℚ, x = 30 → roundDouble x = JSNum.num x := by
    intro x hx
    subst hx
    exact (roundDouble_eq _ (-48) 8444249301319680 (by norm_num) (by norm_num)
      (Or.inr (by norm_num)) (by norm_num) (by norm_num) (by norm_num)).trans (by norm_num)
  obtain ⟨r, h1, h2, _, _, h5⟩ := averageResourceTime_is_double_mean
    { hasPerformanceObserver := true, observeThrows := fun _ => false,
      performance := some
        { timeline := some { navigation := [], resource := [⟨"img", 10, 30⟩, ⟨"script", 0, 40⟩] },
          memory := none } }
    { timeline := some { navigation := [], resource := [⟨"img", 10, 30⟩, ⟨"script", 0, 40⟩] },
      memory := none }
    { navigation := [], resource := [⟨"img", 10, 30⟩, ⟨"script", 0, 40⟩] }
    initialMetrics rfl rfl
  refine ⟨r, h1, h2, ?_⟩
  rw [h5 (by simp)
    (by
      intro x hx
      simp only [List.mem_cons, List.mem_singleton, List.not_mem_nil, or_false] at hx
      rcases hx with h | h <;> subst h
      · exact e20 _ (by norm_num)
      · exact e40 _ (by norm_num))
    (by
      intro k
      rcases k with _ | _ | k
      · simpa using roundDouble_zero
      · exact e20 _ (by norm_num)
      · exact e60 _ (by simp [List.take]; norm_num))
    (e30 _ (by norm_num))]
  norm_num

/-- The part of C10 that the code fulfils, on hosts that have a performance timeline: on a
host without a navigation entry `ttfb` is absent after construction and stays absent under
every sequence of deliveries; if the host has a performance timeline,
`getDetailedMetrics` returns a report (it does not throw) whose `timingBreakdown` is absent,
whose `coreWebVitals` holds lcp, fid, cls, fcp and inp as in the metrics, and whose
`performanceScores` are those of the metrics: an lcp and a fid label exactly when the metric
is present, always a cls label, no ttfb label. -/
theorem report_without_navigation_entry (w : Window) (ds : List EntryList)
    (hnav : ∀ p t, w.performance = some p → p.timeline = some t → t.navigation = []) :
    (newCollector w).metrics.ttfb = none ∧
      (reached w ds).ttfb = none ∧
      ∀ p t, w.performance = some p → p.timeline = some t →
        ∃ r : Report, getDetailedMetrics w (reached w ds) = Except.ok r ∧
          r.timingBreakdown = none ∧
          r.coreWebVitals.ttfb = none ∧
          r.coreWebVitals.lcp = (reached w ds).lcp ∧
          r.coreWebVitals.fid = (reached w ds).fid ∧
          r.coreWebVitals.cls = (reached w ds).cls ∧
          r.coreWebVitals.fcp = (reached w ds).fcp ∧
          r.coreWebVitals.inp = (reached w ds).inp ∧
          r.performanceScores = calculatePerformanceScores (reached w ds) ∧
          ((r.performanceScores.get "lcp").isSome ↔ (reached w ds).lcp.isSome) ∧
          ((r.performanceScores.get "fid").isSome ↔ (reached w ds).fid.isSome) ∧
          (r.performanceScores.get "cls").isSome ∧
          r.performanceScores.get "ttfb" = none := by
  have h0 : (newCollector w).metrics.ttfb = none := newCollector_ttfb_none w hnav
  have h1 : (reached w ds).ttfb = none := by
    unfold reached
    rw [deliverAll_ttfb, h0]
  refine ⟨h0, h1, ?_⟩
  intro p t hp ht
  refine ⟨_, getDetailedMetrics_ok w p t (reached w ds) hp ht, ?_, h1, rfl, rfl, rfl, rfl, rfl, rfl,
    ?_, ?_, ?_, ?_⟩
  · simp [hnav p t hp ht]
  · show ((calculatePerformanceScores (reached w ds)).get "lcp").isSome ↔ _
    rw [scores_get_lcp]
    cases (reached w ds).lcp <;> simp
  · show ((calculatePerformanceScores (reached w ds)).get "fid").isSome ↔ _
    rw [scores_get_fid]
    cases (reached w ds).fid <;> simp
  · show ((calculatePerformanceScores (reached w ds)).get "cls").isSome = true
    rw [scores_get_cls]
    rfl
  · show (calculatePerformanceScores (reached w ds)).get "ttfb" = none
    rw [scores_get_ttfb, h1]
    rfl

/-- An instance of `report_without_navigation_entry`: a host with a timeline but no
navigation entry, after one largest-contentful-paint record at 1200. -/
theorem report_without_navigation_entry_witness :
    (reached
        { hasPerformanceObserver := true, observeThrows := fun _ => false,
          performance := some { timeline := some { navigation := [], resource := [] },
                                memory := none } }
        [EntryList.largestContentfulPaint [⟨1200⟩]]).ttfb = none ∧
      ∃ r : Report,
        getDetailedMetrics
            { hasPerformanceObserver := true, observeThrows := fun _ => false,
              performance := some { timeline := some { navigation := [], resource := [] },
                                    memory := none } }
            (reached
              { hasPerformanceObserver := true, observeThrows := fun _ => false,
                performance := some { timeline := some { navigation := [], resource := [] },
                                      memory := none } }
              [EntryList.largestContentfulPaint [⟨1200⟩]]) = Except.ok r ∧
          r.timingBreakdown = none ∧
          r.coreWebVitals.lcp = some 1200 ∧
          r.performanceScores.get "lcp" = some Label.good := by
  have h := report_without_navigation_entry
    { hasPerformanceObserver := true, observeThrows := fun _ => false,
      performance := some { timeline := some { navigation := [], resource := [] },
                            memory := none } }
    [EntryList.largestContentfulPaint [⟨1200⟩]]
    (by
      intro p t hp ht
      simp only [Option.some.injEq] at hp
      subst hp
      simp only [Option.some.injEq] at ht
      subst ht
      rfl)
  refine ⟨h.2.1, ?_⟩
  obtain ⟨r, hr, htb, _, hlcp, _, _, _, _, hsc, _⟩ := h.2.2 _ _ rfl rfl
  refine ⟨r, hr, htb, ?_, ?_⟩
  · rw [hlcp]
    rfl
  · rw [hsc, scores_get_lcp]
    have : (reached
        { hasPerformanceObserver := true, observeThrows := fun _ => false,
          performance := some { timeline := some { navigation := [], resource := [] },
                                memory := none } }
        [EntryList.largestContentfulPaint [⟨1200⟩]]).lcp = some 1200 := rfl
    rw [this]
    norm_num [Option.map]

/-- C10, the code at the failing input: a host without `performance`, and a host whose
`performance` has no `getEntriesByType`, have no navigation entry, and `calculateTTFB`,
which tests for both, leaves `ttfb` absent there; but `getDetailedMetrics` calls
`performance.getEntriesByType` without that test and throws, a `ReferenceError` on the first
host and a `TypeError` on the second, whatever the metrics, instead of returning a report
with an absent `timingBreakdown`. -/
theorem getDetailedMetrics_throws_without_timeline (m : Metrics) (ds : List EntryList) :
    (reached { hasPerformanceObserver := true, observeThrows := fun _ => false,
               performance := none } ds).ttfb = none ∧
      getDetailedMetrics
          { hasPerformanceObserver := true, observeThrows := fun _ => false,
            performance := none } m = Except.error JSError.referenceError ∧
      (reached { hasPerformanceObserver := true, observeThrows := fun _ => false,
                 performance := some { timeline := none, memory := none } } ds).ttfb = none ∧
      getDetailedMetrics
          { hasPerformanceObserver := true, observeThrows := fun _ => false,
            performance := some { timeline := none, memory := none } } m =
        Except.error JSError.typeError := by
  refine ⟨?_, rfl, ?_, rfl⟩
  · unfold reached
    rw [deliverAll_ttfb]
    rfl
  · unfold reached
    rw [deliverAll_ttfb]
    rfl

/-! ## Reading the metrics -/

/-- C11: `getDetailedMetrics` and `calculatePerformanceScores` leave the collector, and so
every field of the metrics, as it was; a second call made right after the first returns the
same outcome; a returned report holds the six core-web-vitals fields and the layout-shift log
verbatim; and on a host with a performance timeline a report is returned. -/
theorem getDetailedMetrics_reads_only (w : Window) (c : Collector) :
    (callGetDetailedMetrics w c).1 = c ∧
      (callCalculatePerformanceScores c).1 = c ∧
      (callGetDetailedMetrics w (callGetDetailedMetrics w c).1).2 =
        (callGetDetailedMetrics w c).2 ∧
      (∀ r : Report, (callGetDetailedMetrics w c).2 = Except.ok r →
        r.coreWebVitals.lcp = c.metrics.lcp ∧
          r.coreWebVitals.fid = c.metrics.fid ∧
          r.coreWebVitals.cls = c.metrics.cls ∧
          r.coreWebVitals.fcp = c.metrics.fcp ∧
          r.coreWebVitals.inp = c.metrics.inp ∧
          r.coreWebVitals.ttfb = c.metrics.ttfb ∧
          r.layoutShifts = c.metrics.clsEntries ∧
          r.performanceScores = (callCalculatePerformanceScores c).2) ∧
      (∀ p t, w.performance = some p → p.timeline = some t →
        ∃ r : Report, (callGetDetailedMetrics w c).2 = Except.ok r) := by
  refine ⟨rfl, rfl, rfl, ?_, ?_⟩
  · intro r hr
    simp only [callGetDetailedMetrics] at hr
    cases hp : w.performance with
    | none => simp [getDetailedMetrics, hp] at hr
    | some p =>
      cases ht : p.timeline with
      | none => simp [getDetailedMetrics, hp, ht] at hr
      | some t =>
        rw [getDetailedMetrics_ok w p t c.metrics hp ht] at hr
        cases hr
        exact ⟨rfl, rfl, rfl, rfl, rfl, rfl, rfl, rfl⟩
  · intro p t hp ht
    exact ⟨_, getDetailedMetrics_ok w p t c.metrics hp ht⟩

/-- Witness for C11: a collector with `lcp` 1200 on a host with an empty timeline. -/
theorem getDetailedMetrics_reads_only_witness :
    ∃ r : Report,
      (callGetDetailedMetrics
          { hasPerformanceObserver := true, observeThrows := fun _ => false,
            performance := some { timeline := some { navigation := [], resource := [] },
                                  memory := none } }
          { metrics := { initialMetrics with lcp := some 1200 }, observers := [] }).2 =
        Except.ok r ∧ r.coreWebVitals.lcp = some 1200 := by
  have h := getDetailedMetrics_reads_only
    { hasPerformanceObserver := true, observeThrows := fun _ => false,
      performance := some { timeline := some { navigation := [], resource := [] },
                            memory := none } }
    { metrics := { initialMetrics with lcp := some 1200 }, observers := [] }
  obtain ⟨r, hr⟩ := h.2.2.2.2 _ _ rfl rfl
  exact ⟨r, hr, (h.2.2.2.1 r hr).1⟩

/-! ## Teardown -/

/-- C12: `cleanup` is idempotent. A second call leaves the collector as the first left it
(no observers, metrics untouched) and disconnects nothing, so over both calls every held
observer is disconnected as often as it is held: once each for a collector fresh from the
constructor. -/
theorem cleanup_idempotent (c : Collector) :
    (cleanup (cleanup c).1).1 = (cleanup c).1 ∧
      (cleanup c).1.observers = [] ∧
      (cleanup c).1.metrics = c.metrics ∧
      (cleanup (cleanup c).1).2 = [] ∧
      (cleanup c).2 ++ (cleanup (cleanup c).1).2 = c.observers ∧
      (∀ (w : Window) (s : Stream), s ∈ (newCollector w).observers →
        ((cleanup (newCollector w)).2 ++ (cleanup (cleanup (newCollector w)).1).2).count s
          = 1) := by
  refine ⟨rfl, rfl, rfl, rfl, by simp [cleanup], ?_⟩
  intro w s hs
  simp only [cleanup, List.append_nil]
  exact List.count_eq_one_of_mem (newCollector_observers_nodup w) hs

/-- Witness for C12: on a host where only the layout-shift subscription throws, the paint
observer is disconnected once over two calls of `cleanup`. -/
theorem cleanup_idempotent_witness :
    ((cleanup (newCollector
        { hasPerformanceObserver := true,
          observeThrows := fun s => decide (s = Stream.layoutShift),
          performance := none })).2 ++
      (cleanup (cleanup (newCollector
        { hasPerformanceObserver := true,
          observeThrows := fun s => decide (s = Stream.layoutShift),
          performance := none })).1).2).count Stream.paint = 1 :=
  (cleanup_idempotent { metrics := initialMetrics, observers := [] }).2.2.2.2.2
    { hasPerformanceObserver := true,
      observeThrows := fun s => decide (s = Stream.layoutShift),
      performance := none }
    Stream.paint (by decide)

/-! ## Frame of the layout-shift callback -/

/-- C13: a layout-shift record with `hadRecentInput = true` leaves the metrics exactly as
they were and the callback ends normally; and no batch of layout-shift records, whatever its
records, changes lcp, fid, inp, fcp or ttfb. -/
theorem input_caused_shift_changes_nothing (m : Metrics) (e : LayoutShift)
    (es : List LayoutShift) :
    (e.hadRecentInput = true → clsObserver m [e] = ⟨m, Completion.normal⟩) ∧
      ((clsObserver m es).metrics.lcp = m.lcp ∧
        (clsObserver m es).metrics.fid = m.fid ∧
        (clsObserver m es).metrics.inp = m.inp ∧
        (clsObserver m es).metrics.fcp = m.fcp ∧
        (clsObserver m es).metrics.ttfb = m.ttfb) := by
  constructor
  · intro hin
    simp [clsObserver, hin]
  · obtain ⟨C, h⟩ := clsObserver_effect es
    rw [h m]
    exact ⟨rfl, rfl, rfl, rfl, rfl⟩

/-- Witness for C13: an input-caused shift of 7 on metrics whose `cls` is 1/10. -/
theorem input_caused_shift_changes_nothing_witness :
    clsObserver { initialMetrics with cls := JSNum.num (1/10), lcp := some 900 }
        [{ value := some 7, startTime := 3, hadRecentInput := true, sources := none }] =
      ⟨{ initialMetrics with cls := JSNum.num (1/10), lcp := some 900 }, Completion.normal⟩ :=
  (input_caused_shift_changes_nothing
    { initialMetrics with cls := JSNum.num (1/10), lcp := some 900 }
    { value := some 7, startTime := 3, hadRecentInput := true, sources := none } []).1 rfl

/-! ## Monotone accumulators -/

/-- C14, refuted as stated: after a shift of 1/2, a layout-shift record whose value is -1/4
lowers `cls` from 1/2 to 1/4. -/
theorem cls_decreased_counterexample :
    (deliverAll initialMetrics
        [EntryList.layoutShift
          [{ value := some (1/2), startTime := 0, hadRecentInput := false,
             sources := none }]]).cls = JSNum.num (1/2) ∧
      (deliver
        (deliverAll initialMetrics
          [EntryList.layoutShift
            [{ value := some (1/2), startTime := 0, hadRecentInput := false,
               sources := none }]])
        (EntryList.layoutShift
          [{ value := some (-1/4), startTime := 1, hadRecentInput := false,
             sources := none }])).metrics.cls = JSNum.num (1/4) ∧
      JSNum.leNum (JSNum.num (1/2)) (JSNum.num (1/4)) = false := by
  have e1 : roundDouble (0 + 1/2) = JSNum.num (1/2) :=
    (roundDouble_eq _ (-53) 4503599627370496 (by norm_num) (by norm_num)
      (Or.inr (by norm_num)) (by norm_num) (by norm_num) (by norm_num)).trans (by norm_num)
  have e2 : roundDouble (1/2 + -1/4) = JSNum.num (1/4) :=
    (roundDouble_eq _ (-54) 4503599627370496 (by norm_num) (by norm_num)
      (Or.inr (by norm_num)) (by norm_num) (by norm_num) (by norm_num)).trans (by norm_num)
  have h1 : (deliverAll initialMetrics
      [EntryList.layoutShift
        [{ value := some (1/2), startTime := 0, hadRecentInput := false,
           sources := none }]]).cls = JSNum.num (1/2) := e1
  refine ⟨h1, ?_, by norm_num [JSNum.leNum]⟩
  have h2 : (deliver
      (deliverAll initialMetrics
        [EntryList.layoutShift
          [{ value := some (1/2), startTime := 0, hadRecentInput := false,
             sources := none }]])
      (EntryList.layoutShift
        [{ value := some (-1/4), startTime := 1, hadRecentInput := false,
           sources := none }])).metrics.cls =
      (deliverAll initialMetrics
        [EntryList.layoutShift
          [{ value := some (1/2), startTime := 0, hadRecentInput := false,
             sources := none }]]).cls.add (JSNum.num (-1/4)) := rfl
  rw [h2, h1]
  exact e2

/-- C14, amended: in every state reached through deliveries whose counted layout shifts
carry non-negative values, `cls` is at least 0 in JavaScript's order (a non-negative number or
`+Infinity`, never `NaN`), and a further delivery of that kind, of any stream, leaves `cls`
greater than or equal to what it was. -/
theorem cls_not_decreased_by_nonnegative_shifts (w : Window) (ds : List EntryList)
    (d : EntryList) (hds : ∀ x ∈ ds, nonNegativeShifts x = true)
    (hd : nonNegativeShifts d = true) :
    JSNum.leNum (JSNum.num 0) (reached w ds).cls = true ∧
      JSNum.leNum (reached w ds).cls (deliver (reached w ds) d).metrics.cls = true :=
  ⟨leNum_zero_of_nonNegativeOrInfinite _ (reached_cls_nonneg w ds hds),
    (deliver_cls_mono (reached w ds) d (reached_cls_nonneg w ds hds) hd).2⟩

/-- Witness for the amended C14: a shift of 1/4 after a shift of 1/2. -/
theorem cls_not_decreased_by_nonnegative_shifts_witness :
    JSNum.leNum
      (reached { hasPerformanceObserver := true, observeThrows := fun _ => false,
                 performance := none }
        [EntryList.layoutShift
          [{ value := some (1/2), startTime := 0, hadRecentInput := false,
             sources := none }]]).cls
      (deliver
        (reached { hasPerformanceObserver := true, observeThrows := fun _ => false,
                   performance := none }
          [EntryList.layoutShift
            [{ value := some (1/2), startTime := 0, hadRecentInput := false,
               sources := none }]])
        (EntryList.layoutShift
          [{ value := some (1/4), startTime := 1, hadRecentInput := false,
             sources := none }])).metrics.cls = true :=
  (cls_not_decreased_by_nonnegative_shifts
    { hasPerformanceObserver := true, observeThrows := fun _ => false, performance := none }
    [EntryList.layoutShift
      [{ value := some (1/2), startTime := 0, hadRecentInput := false, sources := none }]]
    (EntryList.layoutShift
      [{ value := some (1/4), startTime := 1, hadRecentInput := false, sources := none }])
    (by
      intro x hx
      rw [List.mem_singleton] at hx
      subst hx
      norm_num [nonNegativeShifts])
    (by norm_num [nonNegativeShifts])).2

/-- C15: in every state a collector can reach `inp` is absent or non-negative, and whatever
the state, a delivery of any stream leaves a set `inp` set, with a value greater than or
equal to the one it had. -/
theorem inp_non_decreasing (w : Window) (ds : List EntryList) (d : EntryList) :
    absentOrNonNegative (reached w ds).inp = true ∧
      (∀ (m : Metrics) (v : ℚ), m.inp = some v →
        ∃ v2 : ℚ, (deliver m d).metrics.inp = some v2 ∧ v ≤ v2) :=
  ⟨reached_inp_nonneg w ds, fun m v hv => deliver_inp_mono m d v hv⟩

/-- Witness for C15: with `inp` at 12, an interaction record with delay 5 leaves it set and
not below 12. -/
theorem inp_non_decreasing_witness :
    ∃ v2 : ℚ,
      (deliver { initialMetrics with inp := some 12 }
        (EntryList.firstInput [⟨"keydown", 100, 105, some 4⟩])).metrics.inp = some v2 ∧
      12 ≤ v2 :=
  (inp_non_decreasing
    { hasPerformanceObserver := true, observeThrows := fun _ => false, performance := none }
    [] (EntryList.firstInput [⟨"keydown", 100, 105, some 4⟩])).2
    { initialMetrics with inp := some 12 } 12 rfl

/-! ## Sign of the duration and timestamp fields -/

/-- C16, refuted as stated: a record named `first-input` that starts at 10 and whose
processing starts at 4 takes a fresh collector to a state with `fid` = -6. -/
theorem negative_fid_counterexample :
    (reached { hasPerformanceObserver := true, observeThrows := fun _ => false,
               performance := none }
        [EntryList.firstInput
          [{ name := "first-input", startTime := 10, processingStart := 4,
             interactionId := none }]]).fid = some (-6) ∧
      absentOrNonNegative (some (-6)) = false := by
  constructor
  · norm_num [reached, newCollector, setupObservers, calculateTTFB, deliverAll, deliver,
      fidObserver, fidStep, initialMetrics, EventTiming.hasInteraction]
  · norm_num [absentOrNonNegative]

/-- C16, amended: in every state a collector can reach, `inp` is absent or non-negative; and
lcp, fid, fcp and ttfb are absent or non-negative provided the host's timestamps are ordered:
start times of the delivered largest-contentful-paint and paint records are non-negative,
no first-input-stream record has its processing start before its start time, and the
navigation entry has its response start no earlier than its request start. -/
theorem fields_non_negative_on_ordered_times (w : Window) (ds : List EntryList) :
    absentOrNonNegative (reached w ds).inp = true ∧
      (orderedNavigation w = true → (∀ d ∈ ds, orderedTimes d = true) →
        absentOrNonNegative (reached w ds).lcp = true ∧
          absentOrNonNegative (reached w ds).fid = true ∧
          absentOrNonNegative (reached w ds).fcp = true ∧
          absentOrNonNegative (reached w ds).ttfb = true) := by
  refine ⟨reached_inp_nonneg w ds, fun hw hds => ?_⟩
  obtain ⟨t, ht⟩ := newCollector_metrics w
  have httfb : absentOrNonNegative (newCollector w).metrics.ttfb = true :=
    calculateTTFB_ttfb_nonneg w initialMetrics hw rfl
  refine deliverAll_times_nonneg ds _ hds ⟨?_, ?_, ?_, httfb⟩ <;> rw [ht] <;> rfl

/-- Witness for the amended C16: a navigation entry answered after 120, a paint record at
400 and a first input processed 8 after its start. -/
theorem fields_non_negative_on_ordered_times_witness :
    absentOrNonNegative
      (reached
        { hasPerformanceObserver := true, observeThrows := fun _ => false,
          performance := some
            { timeline := some
                { navigation :=
                    [{ redirectStart := 0, redirectEnd := 0, domainLookupStart := 1,
                       domainLookupEnd := 2, connectStart := 2, connectEnd := 5,
                       secureConnectionStart := 3, requestStart := 6, responseStart := 126,
                       responseEnd := 140, domContentLoadedEventStart := 300,
                       domContentLoadedEventEnd := 310, loadEventStart := 500,
                       loadEventEnd := 505, domInteractive := 290, domComplete := 499,
                       navigationStart := none }],
                  resource := [] },
              memory := none } }
        [EntryList.paint [⟨"first-contentful-paint", 400⟩],
          EntryList.firstInput [⟨"first-input", 900, 908, some 1⟩]]).fid = true :=
  ((fields_non_negative_on_ordered_times
    { hasPerformanceObserver := true, observeThrows := fun _ => false,
      performance := some
        { timeline := some
            { navigation :=
                [{ redirectStart := 0, redirectEnd := 0, domainLookupStart := 1,
                   domainLookupEnd := 2, connectStart := 2, connectEnd := 5,
                   secureConnectionStart := 3, requestStart := 6, responseStart := 126,
                   responseEnd := 140, domContentLoadedEventStart := 300,
                   domContentLoadedEventEnd := 310, loadEventStart := 500,
                   loadEventEnd := 505, domInteractive := 290, domComplete := 499,
                   navigationStart := none }],
              resource := [] },
          memory := none } }
    [EntryList.paint [⟨"first-contentful-paint", 400⟩],
      EntryList.firstInput [⟨"first-input", 900, 908, some 1⟩]]).2
    (by norm_num [orderedNavigation])
    (by
      intro d hd
      simp only [List.mem_cons, List.mem_singleton, List.not_mem_nil, or_false] at hd
      rcases hd with h | h <;> subst h <;> norm_num [orderedTimes])).2.1

/-! ## Subscription -/

/-- C17: whatever subset of the four `observe` calls throws, `setupObservers` (a total
function: every throw is caught) leaves in `observers` exactly the streams whose call did not
throw, in the order largest-contentful-paint, first-input, layout-shift, paint; the metrics
keep their initial lcp, fid, cls, fcp, inp and clsEntries; and `calculateTTFB` has run: `ttfb`
is `responseStart - requestStart` of the navigation entry when the host has one. -/
theorem subscription_degrades_per_stream (w : Window)
    (hpo : w.hasPerformanceObserver = true) :
    (newCollector w).observers = subscriptionOrder.filter (fun s => !w.observeThrows s) ∧
      (∀ s : Stream, s ∈ (newCollector w).observers ↔ w.observeThrows s = false) ∧
      (newCollector w).metrics.lcp = none ∧
      (newCollector w).metrics.fid = none ∧
      (newCollector w).metrics.cls = JSNum.num 0 ∧
      (newCollector w).metrics.fcp = none ∧
      (newCollector w).metrics.inp = none ∧
      (newCollector w).metrics.clsEntries = [] ∧
      (newCollector w).metrics = calculateTTFB w initialMetrics ∧
      (∀ p t nav, w.performance = some p → p.timeline = some t →
        t.navigation.head? = some nav →
        (newCollector w).metrics.ttfb = some (nav.responseStart - nav.requestStart)) := by
  have hobs : (newCollector w).observers =
      subscriptionOrder.filter (fun s => !w.observeThrows s) := by
    rw [newCollector_observers, hpo]
    rfl
  obtain ⟨t, ht⟩ := newCollector_metrics w
  refine ⟨hobs, ?_, ?_, ?_, ?_, ?_, ?_, ?_, rfl, ?_⟩
  · intro s
    rw [hobs, List.mem_filter]
    constructor
    · intro h
      simpa using h.2
    · intro h
      refine ⟨?_, by simp [h]⟩
      cases s <;> simp [subscriptionOrder]
  · rw [ht]; rfl
  · rw [ht]; rfl
  · rw [ht]; rfl
  · rw [ht]; rfl
  · rw [ht]; rfl
  · rw [ht]; rfl
  · intro p tl nav hp htl hnav
    show (calculateTTFB w initialMetrics).ttfb = _
    simp only [calculateTTFB, hp, htl, hnav]

/-- Witness for C17: the largest-contentful-paint and layout-shift subscriptions throw; the
first-input and paint observers are held, in that order. -/
theorem subscription_degrades_per_stream_witness :
    (newCollector
      { hasPerformanceObserver := true,
        observeThrows := fun s =>
          decide (s = Stream.largestContentfulPaint) || decide (s = Stream.layoutShift),
        performance := none }).observers = [Stream.firstInput, Stream.paint] := by
  rw [(subscription_degrades_per_stream
    { hasPerformanceObserver := true,
      observeThrows := fun s =>
        decide (s = Stream.largestContentfulPaint) || decide (s = Stream.layoutShift),
      performance := none } rfl).1]
  decide

/-! ## Independence of the first-input updates -/

/-- C18: from the initial metrics, a record named `first-input` that carries an interaction
identifier sets `fid` to `processingStart - startTime` and `inp` to the maximum of 0 and that
delay, and nothing else; from any state, a record named `first-input` without an interaction
identifier changes `fid` only, and a record with an interaction identifier and another name
changes `inp` only. -/
theorem fid_and_inp_updates_independent (m : Metrics) (e : EventTiming) :
    (e.name = "first-input" → e.hasInteraction = true →
        (fidObserver initialMetrics [e]).metrics =
          { initialMetrics with
            fid := some (e.processingStart - e.startTime)
            inp := some (max 0 (e.processingStart - e.startTime)) }) ∧
      (e.name = "first-input" → e.hasInteraction = false →
        (fidObserver m [e]).metrics =
          { m with fid := some (e.processingStart - e.startTime) }) ∧
      (e.name ≠ "first-input" → e.hasInteraction = true →
        (fidObserver m [e]).metrics =
          { m with inp := some (max (orZero m.inp) (e.processingStart - e.startTime)) }) := by
  refine ⟨?_, ?_, ?_⟩
  · intro hn hi
    simp only [fidObserver, List.foldl_cons, List.foldl_nil, fidStep_eq, hn, hi, if_true,
      delay]
    rfl
  · intro hn hi
    simp only [fidObserver, List.foldl_cons, List.foldl_nil, fidStep_eq, hn, hi, if_true,
      delay]
    rfl
  · intro hn hi
    simp only [fidObserver, List.foldl_cons, List.foldl_nil, fidStep_eq, hn, hi, if_true,
      if_false, delay]

/-- Witness for C18: a `first-input` record with an interaction identifier and a delay of 8
sets both `fid` and `inp` to 8. -/
theorem fid_and_inp_updates_independent_witness :
    (fidObserver initialMetrics [⟨"first-input", 300, 308, some 3⟩]).metrics =
      { initialMetrics with fid := some (308 - 300), inp := some (max 0 (308 - 300)) } :=
  (fid_and_inp_updates_independent initialMetrics ⟨"first-input", 300, 308, some 3⟩).1 rfl rfl

/-! ## Streams are independent -/

/-- C19: two deliveries of different streams leave the same metrics in either order, and the
reason: each callback rewrites its own fields (lcp; fid and inp; cls and clsEntries; fcp) as
a function of those fields alone and leaves every other field as it was. -/
theorem handlers_of_different_streams_commute (m : Metrics) (d1 d2 : EntryList)
    (h : d1.stream ≠ d2.stream) :
    deliverAll m [d1, d2] = deliverAll m [d2, d1] ∧
      (∀ es, ∃ A : Option ℚ → Option ℚ, ∀ s : Metrics,
        (lcpObserver s es).metrics = { s with lcp := A s.lcp }) ∧
      (∀ es, ∃ B1 B2 : Option ℚ → Option ℚ, ∀ s : Metrics,
        (fidObserver s es).metrics = { s with fid := B1 s.fid, inp := B2 s.inp }) ∧
      (∀ es, ∃ C : JSNum → List ClsEntry → JSNum × List ClsEntry, ∀ s : Metrics,
        (clsObserver s es).metrics =
          { s with cls := (C s.cls s.clsEntries).1, clsEntries := (C s.cls s.clsEntries).2 }) ∧
      (∀ es, ∃ D : Option ℚ → Option ℚ, ∀ s : Metrics,
        (paintObserver s es).metrics = { s with fcp := D s.fcp }) :=
  ⟨deliver_comm m d1 d2 h, lcpObserver_effect, fidObserver_effect, clsObserver_effect,
    paintObserver_effect⟩

/-- Witness for C19: a largest-contentful-paint record and a layout shift, in both orders. -/
theorem handlers_of_different_streams_commute_witness :
    deliverAll initialMetrics
        [EntryList.largestContentfulPaint [⟨900⟩],
          EntryList.layoutShift [⟨some (1/10), 950, false, none⟩]] =
      deliverAll initialMetrics
        [EntryList.layoutShift [⟨some (1/10), 950, false, none⟩],
          EntryList.largestContentfulPaint [⟨900⟩]] :=
  (handlers_of_different_streams_commute initialMetrics
    (EntryList.largestContentfulPaint [⟨900⟩])
    (EntryList.layoutShift [⟨some (1/10), 950, false, none⟩])
    (by decide)).1

/-! ## Monotone scoring -/

/-- C20: for each of lcp, fid, cls and ttfb, if `v1 ≤ v2` then the label given to `v1` is no
worse than the label given to `v2` in the order good < needs-improvement < poor, whatever the
other metrics of the two states are. -/
theorem scoring_is_monotone (m1 m2 : Metrics) (v1 v2 : ℚ) (h : v1 ≤ v2) :
    (∃ l1 l2 : Label,
        (calculatePerformanceScores { m1 with lcp := some v1 }).get "lcp" = some l1 ∧
        (calculatePerformanceScores { m2 with lcp := some v2 }).get "lcp" = some l2 ∧
        l1.rank ≤ l2.rank) ∧
      (∃ l1 l2 : Label,
        (calculatePerformanceScores { m1 with fid := some v1 }).get "fid" = some l1 ∧
        (calculatePerformanceScores { m2 with fid := some v2 }).get "fid" = some l2 ∧
        l1.rank ≤ l2.rank) ∧
      (∃ l1 l2 : Label,
        (calculatePerformanceScores { m1 with cls := JSNum.num v1 }).get "cls" = some l1 ∧
        (calculatePerformanceScores { m2 with cls := JSNum.num v2 }).get "cls" = some l2 ∧
        l1.rank ≤ l2.rank) ∧
      (∃ l1 l2 : Label,
        (calculatePerformanceScores { m1 with ttfb := some v1 }).get "ttfb" = some l1 ∧
        (calculatePerformanceScores { m2 with ttfb := some v2 }).get "ttfb" = some l2 ∧
        l1.rank ≤ l2.rank) := by
  refine ⟨⟨_, _, scores_get_lcp _, scores_get_lcp _, ?_⟩,
    ⟨_, _, scores_get_fid _, scores_get_fid _, ?_⟩,
    ⟨_, _, scores_get_cls _, scores_get_cls _, ?_⟩,
    ⟨_, _, scores_get_ttfb _, scores_get_ttfb _, ?_⟩⟩
  · exact classify_mono 2500 4000 v1 v2 h
  · exact classify_mono 100 300 v1 v2 h
  · simp only [JSNum.le, decide_eq_true_eq]
    exact classify_mono 0.1 0.25 v1 v2 h
  · exact classify_mono 800 1800 v1 v2 h

/-- Witness for C20: lcp 2400 is labelled no worse than lcp 4100. -/
theorem scoring_is_monotone_witness :
    ∃ l1 l2 : Label,
      (calculatePerformanceScores { initialMetrics with lcp := some 2400 }).get "lcp"
        = some l1 ∧
      (calculatePerformanceScores { initialMetrics with lcp := some 4100 }).get "lcp"
        = some l2 ∧
      l1.rank ≤ l2.rank :=
  (scoring_is_monotone initialMetrics initialMetrics 2400 4100 (by norm_num)).1

end CoreWebVitals
